import Mathlib

/-
Verification of the gFlex 2D flexure solver (f2d.py) against its
natural-language specification.

The development shallowly embeds the numerical core of F2D:
  * floating-point values carrying the IEEE special values that the code
    manipulates on purpose (np.inf sentinels, np.nan padding) are modelled
    by the inductive type FVal over exact rationals;
  * 2D numpy arrays are functions from (row, column) indices to FVal;
  * the stencil-coefficient builder (get_coeff_values), the rigidity
    boundary conditions (BC_Rigidity), the flexural boundary-condition
    rewriting (BC_Flexure), the sparse assembly (build_diags, for the
    configurations without periodic wraparound), the linear-solve dispatch
    (fd_solve) and the analytical scattered-point solver
    (spatialDomainNoGrid) are translated function by function;
  * external scipy collaborators (lgmres, spsolve, the Kelvin function kei)
    are parameters of the embedded functions, mirroring the imports.
-/

namespace GFlex

/-- Model of an IEEE-754 double as used by f2d.py: an exact rational,
positive or negative infinity (np.inf sentinels), or nan (np.nan padding). -/
inductive FVal where
  | fin : ℚ → FVal
  | pinf : FVal
  | ninf : FVal
  | nan : FVal
deriving DecidableEq

namespace FVal

/-- IEEE addition on FVal (nan propagates; inf + (-inf) = nan). -/
def add : FVal → FVal → FVal
  | nan, _ => nan
  | _, nan => nan
  | pinf, ninf => nan
  | ninf, pinf => nan
  | pinf, _ => pinf
  | _, pinf => pinf
  | ninf, _ => ninf
  | _, ninf => ninf
  | fin a, fin b => fin (a + b)

/-- IEEE negation on FVal. -/
def neg : FVal → FVal
  | fin a => fin (-a)
  | pinf => ninf
  | ninf => pinf
  | nan => nan

/-- IEEE subtraction on FVal. -/
def sub (a b : FVal) : FVal := a.add b.neg

/-- IEEE multiplication on FVal (inf * 0 = nan; nan propagates). -/
def mul : FVal → FVal → FVal
  | nan, _ => nan
  | _, nan => nan
  | pinf, pinf => pinf
  | pinf, ninf => ninf
  | ninf, pinf => ninf
  | ninf, ninf => pinf
  | pinf, fin b => if b = 0 then nan else if 0 < b then pinf else ninf
  | fin a, pinf => if a = 0 then nan else if 0 < a then pinf else ninf
  | ninf, fin b => if b = 0 then nan else if 0 < b then ninf else pinf
  | fin a, ninf => if a = 0 then nan else if 0 < a then ninf else pinf
  | fin a, fin b => fin (a * b)

/-- IEEE division on FVal (x/0 = signed inf, 0/0 = nan, inf/inf = nan,
finite/inf = 0; nan propagates). -/
def div : FVal → FVal → FVal
  | nan, _ => nan
  | _, nan => nan
  | pinf, pinf => nan
  | pinf, ninf => nan
  | ninf, pinf => nan
  | ninf, ninf => nan
  | pinf, fin b => if 0 ≤ b then pinf else ninf
  | ninf, fin b => if 0 ≤ b then ninf else pinf
  | fin _, pinf => fin 0
  | fin _, ninf => fin 0
  | fin a, fin b =>
      if b = 0 then (if a = 0 then nan else if 0 < a then pinf else ninf)
      else fin (a / b)

instance : Add FVal := ⟨add⟩
instance : Neg FVal := ⟨neg⟩
instance : Sub FVal := ⟨sub⟩
instance : Mul FVal := ⟨mul⟩
instance : Div FVal := ⟨div⟩
instance (n : ℕ) : OfNat FVal n := ⟨fin (OfNat.ofNat n)⟩

end FVal

/-- Lift a rational scalar into FVal. -/
def F (q : ℚ) : FVal := FVal.fin q

/-- The sentinel sweep of build_diags: array[np.isinf(array)] = 0
(nan entries are kept -- the nan sweep in the source is commented out). -/
def zi : FVal → FVal
  | FVal.pinf => FVal.fin 0
  | FVal.ninf => FVal.fin 0
  | v => v

/-- A 2D numpy array: row index, then column index. -/
abbrev Arr := ℕ → ℕ → FVal

/-!
## fd_solve (f2d.py lines 1543-1583): linear-solve dispatch

The scipy solvers are parameters.  scipy lgmres has signature
lgmres(A, b, x0=None, tol=1e-05, ...); the source calls
`lgmres(self.coeff_matrix, q0vector)` -- the `tol=1E-10` argument is
commented out -- so Python fills in the library default tolerance.
The returned pair is (solution iterate, info flag); the source keeps
only element 0 of the tuple.
-/

/-- The default value of the tol argument of scipy lgmres (1e-5),
which is what the call site in fd_solve lets Python pass. -/
def scipy_lgmres_tol_default : ℚ := 1 / 100000

/-- Embedding of F2D.fd_solve.  `lgmres` and `spsolve` stand for the scipy
collaborators; the matrix type is abstract.  `iterative_CT` is the model's
iterative_ConvergenceTolerance attribute: the source only echoes it in a
Verbose print and never passes it to the solver.  The solver-label dispatch,
the default to the direct method for labels that are not understood, the
flattening of q0 (C order), and the final sign negation and reshape follow
the source. -/
def fd_solve {α : Type} (solver : String) (iterative_CT : ℚ)
    (lgmres : α → (ℕ → ℚ) → ℚ → ((ℕ → ℚ) × ℤ))
    (spsolve : α → (ℕ → ℚ) → (ℕ → ℚ))
    (coeff_matrix : α) (nx : ℕ) (q0 : ℕ → ℕ → ℚ) : ℕ → ℕ → ℚ :=
  let q0vector : ℕ → ℚ := fun k => q0 (k / nx) (k % nx)
  let wvector : ℕ → ℚ :=
    if solver = "iterative" ∨ solver = "Iterative" then
      -- wvector = lgmres(coeff_matrix, q0vector); wvector = wvector[0]
      (lgmres coeff_matrix q0vector scipy_lgmres_tol_default).1
    else
      -- direct and "not understood" labels both fall through to spsolve
      spsolve coeff_matrix q0vector
  -- self.w = -wvector.reshape(self.q0.shape)
  fun i j => -(wvector (i * nx + j))

/-!
## get_coeff_values (f2d.py lines 205-435): stencil-coefficient builder

A bundle of the 13 named-offset coefficient arrays (c j-offset i-offset;
j = columns = x, i = rows = y).  The same structure is used for the raw
"_coeff_ij" arrays and for the working arrays rewritten by BC_Flexure.
The four optional arrays are the auxiliary wrapped diagonals that the
periodic boundary conditions allocate (np.zeros-based). -/
structure CoeffArrays where
  cj_2i0 : Arr
  cj_1i_1 : Arr
  cj_1i0 : Arr
  cj_1i1 : Arr
  cj0i_2 : Arr
  cj0i_1 : Arr
  cj0i0 : Arr
  cj0i1 : Arr
  cj0i2 : Arr
  cj1i_1 : Arr
  cj1i0 : Arr
  cj1i1 : Arr
  cj2i0 : Arr
  cj_1i1_Periodic_right : Option Arr := none
  cj_2i0_Periodic_right : Option Arr := none
  cj1i_1_Periodic_left : Option Arr := none
  cj2i0_Periodic_left : Option Arr := none

/-- elasprep (lines 154-164): grid-spacing powers. -/
def elasprep_dx4 (dx : ℚ) : ℚ := dx ^ 4

/-- elasprep: dy**4. -/
def elasprep_dy4 (dy : ℚ) : ℚ := dy ^ 4

/-- elasprep: dx**2 * dy**2. -/
def elasprep_dx2dy2 (dx dy : ℚ) : ℚ := dx ^ 2 * dy ^ 2

/-- elasprep / spatialDomainVars rigidity formula D = E Te^3 / (12 (1-nu^2)),
applied pointwise to an array-valued Te (Te**3 elementwise, scalar
denominator). -/
def elasprep_D_array (E nu : ℚ) (Te : Arr) : Arr :=
  fun i j => (F E * (Te i j * Te i j * Te i j)) / F (12 * (1 - nu ^ 2))

/-- Scalar-Te branch of get_coeff_values (lines 221-263): the closed-form
symmetric stencil, one constant per coefficient, later broadcast by
multiplying np.ones of the grid shape.  Transcribed term for term. -/
def get_coeff_values_scalar (D drho dx4 dy4 dx2dy2 nu g : ℚ) : CoeffArrays :=
  -- nu is unused in this branch of the source; listed for signature parity
  let _ := nu
  { cj2i0 := fun _ _ => F (D / dy4)
    cj1i_1 := fun _ _ => F (2 * D / dx2dy2)
    cj1i0 := fun _ _ => F (-4 * D / dy4 - 4 * D / dx2dy2)
    cj1i1 := fun _ _ => F (2 * D / dx2dy2)
    cj0i_2 := fun _ _ => F (D / dx4)
    cj0i_1 := fun _ _ => F (-4 * D / dx4 - 4 * D / dx2dy2)
    cj0i0 := fun _ _ => F (6 * D / dx4 + 6 * D / dy4 + 8 * D / dx2dy2 + drho * g)
    cj0i1 := fun _ _ => F (-4 * D / dx4 - 4 * D / dx2dy2)
    cj0i2 := fun _ _ => F (D / dx4)
    cj_1i_1 := fun _ _ => F (2 * D / dx2dy2)
    cj_1i0 := fun _ _ => F (-4 * D / dy4 - 4 * D / dx2dy2)
    cj_1i1 := fun _ _ => F (2 * D / dx2dy2)
    cj_2i0 := fun _ _ => F (D / dy4) }

/-- Array-Te branch of get_coeff_values (lines 265-431).  D is the padded
rigidity array (one ghost cell per side), so the coefficient array cell
(i, j) reads D at padded indices (i+1, j+1) and its neighbours, matching
the slices D[1:-1,1:-1] (D00), D[1:-1,2:] (D10), D[1:-1,:-2] (D_10),
D[2:,1:-1] (D01), D[:-2,1:-1] (D0_1), D[2:,2:] (D11), D[2:,:-2] (D_11),
D[:-2,2:] (D1_1), D[:-2,:-2] (D_1_1).  Dispatch on PlateSolutionType is on
the literal strings of the source, including the sys.exit messages. -/
def get_coeff_values_array (PlateSolutionType : String) (D : Arr)
    (drho dx4 dy4 dx2dy2 nu g : ℚ) : Except String CoeffArrays :=
  let D00 : Arr := fun i j => D (i + 1) (j + 1)
  let D10 : Arr := fun i j => D (i + 1) (j + 2)
  let D_10 : Arr := fun i j => D (i + 1) j
  let D01 : Arr := fun i j => D (i + 2) (j + 1)
  let D0_1 : Arr := fun i j => D i (j + 1)
  let D11 : Arr := fun i j => D (i + 2) (j + 2)
  let D_11 : Arr := fun i j => D (i + 2) j
  let D1_1 : Arr := fun i j => D i (j + 2)
  let D_1_1 : Arr := fun i j => D i j
  let D0 : Arr := D00
  let Dx : Arr := fun i j => (-(D_10 i j) + D10 i j) / 2
  let Dy : Arr := fun i j => (-(D0_1 i j) + D01 i j) / 2
  let Dxx : Arr := fun i j => D_10 i j - 2 * D00 i j + D10 i j
  let Dyy : Arr := fun i j => D0_1 i j - 2 * D00 i j + D01 i j
  let Dxy : Arr := fun i j => (D_1_1 i j - D_11 i j - D1_1 i j + D11 i j) / 4
  if PlateSolutionType = "vWC1994" then
    Except.ok
    { cj_2i0 := fun i j => (D0 i j - Dx i j) / F dx4
      cj0i_2 := fun i j => (D0 i j - Dy i j) / F dy4
      cj0i2 := fun i j => (D0 i j + Dy i j) / F dy4
      cj2i0 := fun i j => (D0 i j + Dx i j) / F dx4
      cj_1i_1 := fun i j =>
        (2 * D0 i j - Dx i j - Dy i j + Dxy i j * F (1 - nu) / 2) / F dx2dy2
      cj_1i1 := fun i j =>
        (2 * D0 i j - Dx i j + Dy i j - Dxy i j * F (1 - nu) / 2) / F dx2dy2
      cj1i_1 := fun i j =>
        (2 * D0 i j + Dx i j - Dy i j - Dxy i j * F (1 - nu) / 2) / F dx2dy2
      cj1i1 := fun i j =>
        (2 * D0 i j + Dx i j + Dy i j + Dxy i j * F (1 - nu) / 2) / F dx2dy2
      cj_1i0 := fun i j =>
        (-4 * D0 i j + 2 * Dx i j + Dxx i j) / F dx4
          + (-4 * D0 i j + 2 * Dx i j + F nu * Dyy i j) / F dx2dy2
      cj0i_1 := fun i j =>
        (-4 * D0 i j + 2 * Dy i j + Dyy i j) / F dy4
          + (-4 * D0 i j + 2 * Dy i j + F nu * Dxx i j) / F dx2dy2
      cj0i1 := fun i j =>
        (-4 * D0 i j - 2 * Dy i j + Dyy i j) / F dy4
          + (-4 * D0 i j - 2 * Dy i j + F nu * Dxx i j) / F dx2dy2
      cj1i0 := fun i j =>
        (-4 * D0 i j - 2 * Dx i j + Dxx i j) / F dx4
          + (-4 * D0 i j - 2 * Dx i j + F nu * Dyy i j) / F dx2dy2
      cj0i0 := fun i j =>
        (6 * D0 i j - 2 * Dxx i j) / F dx4
          + (6 * D0 i j - 2 * Dyy i j) / F dy4
          + (8 * D0 i j - 2 * F nu * Dxx i j - 2 * F nu * Dyy i j) / F dx2dy2
          + F (drho * g) }
  else if PlateSolutionType = "LinearTeVariationsOnly" then
    -- sys.exit fires before any coefficient array of this stencil is built
    Except.error "CHECK LATER PARTS OF SOLUTION: NOT SURE IF THEY ARE RIGHT"
  else if PlateSolutionType = "G2009" then
    Except.ok
    { cj_2i0 := fun i j => D_10 i j / F dx4
      cj_1i_1 := fun i j => (D_10 i j + D0_1 i j) / F dx2dy2
      cj_1i0 := fun i j =>
        (-2) * ((D0_1 i j + D00 i j) / F dx2dy2 + (D00 i j + D_10 i j) / F dx4)
      cj_1i1 := fun i j => (D_10 i j + D01 i j) / F dx2dy2
      cj0i_2 := fun i j => D0_1 i j / F dy4
      cj0i_1 := fun i j =>
        (-2) * ((D0_1 i j + D00 i j) / F dx2dy2 + (D00 i j + D0_1 i j) / F dy4)
      cj0i0 := fun i j =>
        (D10 i j + 4 * D00 i j + D_10 i j) / F dx4
          + (D01 i j + 4 * D00 i j + D0_1 i j) / F dy4
          + 8 * D00 i j / F dx2dy2 + F (drho * g)
      cj0i1 := fun i j =>
        (-2) * ((D01 i j + D00 i j) / F dy4 + (D00 i j + D01 i j) / F dx2dy2)
      cj0i2 := fun i j => D0_1 i j / F dy4
      cj1i_1 := fun i j => (D10 i j + D0_1 i j) / F dx2dy2
      cj1i0 := fun i j =>
        (-2) * ((D10 i j + D00 i j) / F dx4 + (D10 i j + D00 i j) / F dx2dy2)
      cj1i1 := fun i j => (D10 i j + D01 i j) / F dx2dy2
      cj2i0 := fun i j => D10 i j / F dx4 }
  else
    Except.error ("Not an acceptable plate solution type. Please choose from:\n"
      ++ "* vWC1994\n" ++ "* LinearTeVariationsOnly\n" ++ "* G2009\n" ++ "")

/-!
## SAS_NG: spatialDomainVars + spatialDomainNoGrid (lines 88-91, 133-148)

Real-valued; the Kelvin function kei (scipy.special.kei) is a parameter.
-/

/-- spatialDomainVars: flexural rigidity D = E Te^3 / (12 (1 - nu^2)). -/
noncomputable def SAS_D (E Te nu : ℝ) : ℝ := E * Te ^ 3 / (12 * (1 - nu ^ 2))

/-- spatialDomainVars: 2D flexural parameter alpha = (D / (drho g))^0.25. -/
noncomputable def SAS_alpha (E Te nu drho g : ℝ) : ℝ :=
  (SAS_D E Te nu / (drho * g)) ^ ((1 : ℝ) / 4)

/-- spatialDomainVars: coeff = alpha^2 / (2 pi D). -/
noncomputable def SAS_coeff (E Te nu drho g : ℝ) : ℝ :=
  SAS_alpha E Te nu drho g ^ 2 / (2 * Real.pi * SAS_D E Te nu)

/-- Distance array entry of spatialDomainNoGrid:
r = sqrt((x - x0)^2 + (y - y0)^2). -/
noncomputable def SAS_dist {n : ℕ} (x y : Fin n → ℝ) (k i : Fin n) : ℝ :=
  Real.sqrt ((x k - x i) ^ 2 + (y k - y i) ^ 2)

/-- spatialDomainNoGrid: starting from w = zeros, loop over every point i
and accumulate w += q0[i] * coeff * kei(r / alpha) over the whole w array
(r is the array of distances from point i to every point, point i itself
included, where r = 0). -/
noncomputable def spatialDomainNoGrid (n : ℕ) (x y q0 : Fin n → ℝ)
    (kei : ℝ → ℝ) (E Te nu drho g : ℝ) : Fin n → ℝ :=
  (List.finRange n).foldl
    (fun w i => fun k =>
      w k + q0 i * SAS_coeff E Te nu drho g
        * kei (SAS_dist x y k i / SAS_alpha E Te nu drho g))
    (fun _ => 0)

/-!
## Boundary-condition labels and array-update helpers
-/

/-- The five per-edge boundary-condition labels of the source
("Dirichlet0", "0Moment0Shear", "0Slope0Shear", "Mirror", "Periodic"). -/
inductive BCLabel where
  | Dirichlet0
  | ZeroMoment0Shear
  | ZeroSlope0Shear
  | Mirror
  | Periodic
deriving DecidableEq

/-- The three flexural-rigidity boundary-condition modes that BC_Rigidity
selects ("periodic", "0 curvature", "mirror symmetry"). -/
inductive RigidityBC where
  | periodic
  | zeroCurvature
  | mirrorSymmetry
deriving DecidableEq

/-- BC_Rigidity label selection (lines 476-510): Periodic stays periodic;
Dirichlet0 / 0Moment0Shear / 0Slope0Shear map to 0 curvature; Mirror maps
to mirror symmetry. -/
def BC_Rigidity_mode : BCLabel → RigidityBC
  | .Periodic => .periodic
  | .Dirichlet0 => .zeroCurvature
  | .ZeroMoment0Shear => .zeroCurvature
  | .ZeroSlope0Shear => .zeroCurvature
  | .Mirror => .mirrorSymmetry

/-- numpy column assignment a[:, j] = g. -/
def setCol (f : Arr) (j : ℕ) (g : ℕ → FVal) : Arr :=
  fun i' j' => if j' = j then g i' else f i' j'

/-- numpy row assignment a[i, :] = g. -/
def setRow (f : Arr) (i : ℕ) (g : ℕ → FVal) : Arr :=
  fun i' j' => if i' = i then g j' else f i' j'

/-- numpy column accumulation a[:, j] += g. -/
def colAdd (f : Arr) (j : ℕ) (g : ℕ → FVal) : Arr :=
  fun i' j' => if j' = j then f i' j' + g i' else f i' j'

/-- numpy row accumulation a[i, :] += g. -/
def rowAdd (f : Arr) (i : ℕ) (g : ℕ → FVal) : Arr :=
  fun i' j' => if i' = i then f i' j' + g j' else f i' j'

/-- numpy cell accumulation a[i, j] += v. -/
def cellAdd (f : Arr) (i j : ℕ) (v : FVal) : Arr :=
  fun i' j' => if i' = i ∧ j' = j then f i' j' + v else f i' j'

/-- numpy cell decrement a[i, j] -= v. -/
def cellSub (f : Arr) (i j : ℕ) (v : FVal) : Arr :=
  fun i' j' => if i' = i ∧ j' = j then f i' j' - v else f i' j'

/-- The masked row write a[i, :][a[i, :] != np.inf] = np.nan used by the
North blocks of BC_Flexure. -/
def rowSetNanNotInf (f : Arr) (i : ℕ) : Arr :=
  fun i' j' => if i' = i ∧ f i' j' ≠ FVal.pinf then FVal.nan else f i' j'

/-!
## BC_Rigidity (lines 466-554)

For array Te, the Te and D grids are padded by one ghost cell per side
with np.nan (np.hstack / np.vstack of nan columns and rows), then the
ghost rows and columns are filled in the fixed source order:
all "0 curvature" edges (W, E, N, S), then all "mirror symmetry" edges
(W, E, N, S), then all "periodic" edges (W, E, N, S).  On the padded
(ny+2) x (nx+2) grid the Python negative indices are -1 = nx+1 (or ny+1),
-2 = nx (ny), -3 = nx-1 (ny-1).
-/

/-- Pad an ny x nx array with one nan ghost cell per side. -/
def padArr (nx ny : ℕ) (a : Arr) : Arr :=
  fun i j =>
    if i = 0 ∨ i = ny + 1 ∨ j = 0 ∨ j = nx + 1 then FVal.nan
    else a (i - 1) (j - 1)

/-- Ghost-filling pass of BC_Rigidity on the padded rigidity array
(lines 529-554), sequential, each assignment reading the current array. -/
def BC_Rigidity_apply (rW rE rN rS : RigidityBC) (nx ny : ℕ) (D0 : Arr) :
    Arr :=
  -- 0 curvature: D[:,0] = 2 D[:,1] - D[:,2] and the three analogues
  let s := D0
  let s := if rW = .zeroCurvature then
    setCol s 0 (fun i => 2 * s i 1 - s i 2) else s
  let s := if rE = .zeroCurvature then
    setCol s (nx + 1) (fun i => 2 * s i nx - s i (nx - 1)) else s
  let s := if rN = .zeroCurvature then
    setRow s 0 (fun j => 2 * s 1 j - s 2 j) else s
  let s := if rS = .zeroCurvature then
    setRow s (ny + 1) (fun j => 2 * s ny j - s (ny - 1) j) else s
  -- mirror symmetry: D[:,0] = D[:,2] and the three analogues
  let s := if rW = .mirrorSymmetry then setCol s 0 (fun i => s i 2) else s
  let s := if rE = .mirrorSymmetry then
    setCol s (nx + 1) (fun i => s i (nx - 1)) else s
  let s := if rN = .mirrorSymmetry then setRow s 0 (fun j => s 2 j) else s
  let s := if rS = .mirrorSymmetry then
    setRow s (ny + 1) (fun j => s (ny - 1) j) else s
  -- periodic: D[:,0] = D[:,-2]; D[:,-1] = D[:,-3];
  --           D[0,:] = D[-2,:]; D[-1,:] = D[-3,:]
  let s := if rW = .periodic then setCol s 0 (fun i => s i nx) else s
  let s := if rE = .periodic then
    setCol s (nx + 1) (fun i => s i (nx - 1)) else s
  let s := if rN = .periodic then setRow s 0 (fun j => s ny j) else s
  let s := if rS = .periodic then
    setRow s (ny + 1) (fun j => s (ny - 1) j) else s
  s

/-- BC_Rigidity for array-valued Te (lines 466-554): select the rigidity
modes from the four edge labels, pad Te and D with nan ghosts, and fill the
D ghosts.  Returns (padded Te, padded-and-filled D). -/
def BC_Rigidity_array (W E N S : BCLabel) (nx ny : ℕ) (Te D : Arr) :
    Arr × Arr :=
  (padArr nx ny Te,
   BC_Rigidity_apply (BC_Rigidity_mode W) (BC_Rigidity_mode E)
     (BC_Rigidity_mode N) (BC_Rigidity_mode S) nx ny (padArr nx ny D))

/-- A 3x3 test rigidity grid with nine distinct literal values
(row i, column j holds 3i+j), used to exercise BC_Rigidity. -/
def testD3 : Arr := fun i j =>
  F (if i = 0 then (if j = 0 then 0 else if j = 1 then 1 else 2)
     else if i = 1 then (if j = 0 then 3 else if j = 1 then 4 else 5)
     else (if j = 0 then 6 else if j = 1 then 7 else 8))

/-!
## F2D.run and F2D.FFT (lines 15-46, 66-67)

run() first mutates self.solver_start_time, then dispatches on
self.method: each recognized branch calls the base-class template hook
(super(F2D, self).FD() etc., which lives in base.py, outside this
repository: it is a parameter here) and then binds self.method_func,
which is finally invoked.  F2D.FFT itself is sys.exit with the
unsupported-method message.  Errors carry the model state at exit time.
-/

/-- The attributes of the model object that run() itself touches. -/
structure F2DRunState where
  method : String
  solver_start_time : Option ℚ := none
  method_func : Option String := none
  time_to_solve : Option ℚ := none
deriving DecidableEq

/-- F2D.FFT (lines 66-67): sys.exit("The fast Fourier transform solution
method is not yet implemented."). -/
def F2D_FFT (s : F2DRunState) : Except (String × F2DRunState) F2DRunState :=
  Except.error
    ("The fast Fourier transform solution method is not yet implemented.", s)

/-- F2D.run (lines 15-46).  t1 is the time.time() reading at entry and t2
the reading after the solve; baseFD/baseFFT/baseSAS/baseSAS_NG stand for
the base-class template hooks (base.py, not under src/) and
FD_impl/SAS_impl/SAS_NG_impl for the solution methods invoked through
self.method_func() in the non-FFT branches. -/
def F2D_run (t1 t2 : ℚ)
    (baseFD baseFFT baseSAS baseSAS_NG : F2DRunState → F2DRunState)
    (FD_impl SAS_impl SAS_NG_impl :
      F2DRunState → Except (String × F2DRunState) F2DRunState)
    (s0 : F2DRunState) : Except (String × F2DRunState) F2DRunState :=
  -- self.solver_start_time = time.time()
  let s := { s0 with solver_start_time := some t1 }
  if s.method = "FD" then
    let s := { baseFD s with method_func := some "FD" }
    (FD_impl s).map fun s3 => { s3 with time_to_solve := some (t2 - t1) }
  else if s.method = "FFT" then
    let s := { baseFFT s with method_func := some "FFT" }
    (F2D_FFT s).map fun s3 => { s3 with time_to_solve := some (t2 - t1) }
  else if s.method = "SAS" then
    let s := { baseSAS s with method_func := some "SAS" }
    (SAS_impl s).map fun s3 => { s3 with time_to_solve := some (t2 - t1) }
  else if s.method = "SAS_NG" then
    let s := { baseSAS_NG s with method_func := some "SAS_NG" }
    (SAS_NG_impl s).map fun s3 => { s3 with time_to_solve := some (t2 - t1) }
  else
    Except.error
      ("Error: method must be \"FD\", \"FFT\", \"SAS\", or \"SAS_NG\"", s)

/-!
## BC_Flexure (lines 556-1291)

The coefficient arrays are rewritten edge by edge (West, East, North,
South) and then at corners.  `cij` holds the raw `_coeff_ij` arrays; `s`
the working arrays.  Python column -1 is nx-1, column -2 is nx-2, row -1
is ny-1, row -2 is ny-2.  Literal `+= 0` statements of the source (and
masked `[...!=inf] += 0` statements) are identities and are not repeated
here; every value-changing statement is transcribed in source order.
An unpaired Periodic edge raises the source's sys.exit message.
-/

/-- Constant +infinity column/row for the `+= np.inf` sentinel writes. -/
def pinfC : ℕ → FVal := fun _ => FVal.pinf

/-- West block of BC_Flexure (lines 574-738): columns j = 0 and j = 1. -/
def westBlock (W E : BCLabel) (cij s : CoeffArrays) :
    Except String CoeffArrays :=
  match W with
  | .Periodic =>
    match E with
    | .Periodic =>
      -- new wrapped diagonals, then the shuffle-down of the tridiagonal
      -- values, then the inf sentinels (lines 585-616)
      Except.ok { s with
        cj_1i1_Periodic_right :=
          some (fun i' j' => if j' = 0 then s.cj_1i_1 i' 0 else FVal.fin 0)
        cj_2i0_Periodic_right :=
          some (fun i' j' =>
            if j' = 0 ∨ j' = 1 then s.cj_2i0 i' j' else FVal.fin 0)
        cj_1i1 := setCol s.cj_1i1 0 (fun i => s.cj_1i0 i 0)
        cj_1i0 := setCol s.cj_1i0 0 (fun i => s.cj_1i_1 i 0)
        cj_2i0 := colAdd (colAdd s.cj_2i0 0 pinfC) 1 pinfC
        cj_1i_1 := colAdd s.cj_1i_1 0 pinfC }
    | _ =>
      Except.error
        "Not physical to have one wrap-around boundary but not its pair."
  | .Dirichlet0 =>
    Except.ok { s with
      cj_2i0 := colAdd (colAdd s.cj_2i0 0 pinfC) 1 pinfC
      cj_1i_1 := colAdd s.cj_1i_1 0 pinfC
      cj_1i0 := colAdd s.cj_1i0 0 pinfC
      cj_1i1 := colAdd s.cj_1i1 0 pinfC }
  | .ZeroMoment0Shear =>
    Except.ok { s with
      cj_2i0 := colAdd (colAdd s.cj_2i0 0 pinfC) 1 pinfC
      cj_1i_1 := colAdd s.cj_1i_1 0 pinfC
      cj_1i0 := colAdd (colAdd s.cj_1i0 0 pinfC) 1
        (fun i => 2 * cij.cj_2i0 i 1)
      cj_1i1 := colAdd s.cj_1i1 0 pinfC
      cj0i_1 := colAdd s.cj0i_1 0 (fun i => 2 * cij.cj_1i_1 i 0)
      cj0i0 := colAdd s.cj0i0 0
        (fun i => 4 * cij.cj_2i0 i 0 + 2 * cij.cj_1i0 i 0)
      cj0i1 := colAdd s.cj0i1 0 (fun i => 2 * cij.cj_1i1 i 0)
      cj1i_1 := colAdd s.cj1i_1 0 (fun i => -(cij.cj_1i_1 i 0))
      cj1i0 := colAdd (colAdd s.cj1i0 0
        (fun i => -4 * cij.cj_2i0 i 0 - cij.cj_1i0 i 0)) 1
        (fun i => -2 * cij.cj_2i0 i 1)
      cj1i1 := colAdd s.cj1i1 0 (fun i => -(cij.cj_1i1 i 0))
      cj2i0 := colAdd (colAdd s.cj2i0 0 (fun i => cij.cj_2i0 i 0)) 1
        (fun i => cij.cj_2i0 i 1) }
  | .ZeroSlope0Shear =>
    Except.ok { s with
      cj_2i0 := colAdd (colAdd s.cj_2i0 0 pinfC) 1 pinfC
      cj_1i_1 := colAdd s.cj_1i_1 0 pinfC
      cj_1i0 := colAdd s.cj_1i0 0 pinfC
      cj_1i1 := colAdd s.cj_1i1 0 pinfC
      cj1i_1 := colAdd s.cj1i_1 0 (fun i => cij.cj_1i_1 i 0)
      cj1i0 := colAdd s.cj1i0 0 (fun i => cij.cj_1i0 i 0)
      cj1i1 := colAdd s.cj1i1 0 (fun i => cij.cj_1i1 i 0)
      cj2i0 := colAdd (colAdd s.cj2i0 0 (fun i => cij.cj_2i0 i 0)) 1
        (fun i => cij.cj_2i0 i 1) }
  | .Mirror =>
    Except.ok { s with
      cj_2i0 := colAdd (colAdd s.cj_2i0 0 pinfC) 1 pinfC
      cj_1i_1 := colAdd s.cj_1i_1 0 pinfC
      cj_1i0 := colAdd s.cj_1i0 0 pinfC
      cj_1i1 := colAdd s.cj_1i1 0 pinfC
      cj0i0 := colAdd s.cj0i0 1 (fun i => cij.cj_2i0 i 1)
      cj1i_1 := colAdd s.cj1i_1 0 (fun i => cij.cj_1i_1 i 0)
      cj1i0 := colAdd s.cj1i0 0 (fun i => cij.cj_1i0 i 0)
      cj1i1 := colAdd s.cj1i1 0 (fun i => cij.cj_1i1 i 0)
      cj2i0 := colAdd s.cj2i0 0 (fun i => cij.cj_2i0 i 0) }

/-- East block of BC_Flexure (lines 740-889): columns nx-1 (-1) and
nx-2 (-2). -/
def eastBlock (E W : BCLabel) (nx : ℕ) (cij s : CoeffArrays) :
    Except String CoeffArrays :=
  match E with
  | .Periodic =>
    match W with
    | .Periodic =>
      Except.ok { s with
        cj1i_1_Periodic_left :=
          some (fun i' j' =>
            if j' = nx - 1 then s.cj1i_1 i' (nx - 1) else FVal.fin 0)
        cj2i0_Periodic_left :=
          some (fun i' j' =>
            if j' = nx - 1 ∨ j' = nx - 2 then s.cj2i0 i' j' else FVal.fin 0)
        cj1i_1 := setCol s.cj1i_1 (nx - 1) (fun i => s.cj1i0 i (nx - 1))
        cj1i0 := setCol s.cj1i0 (nx - 1) (fun i => s.cj1i1 i (nx - 1))
        cj1i1 := colAdd s.cj1i1 (nx - 1) pinfC
        cj2i0 := colAdd (colAdd s.cj2i0 (nx - 1) pinfC) (nx - 2) pinfC }
    | _ =>
      Except.error
        "Not physical to have one wrap-around boundary but not its pair."
  | .Dirichlet0 =>
    Except.ok { s with
      cj1i_1 := colAdd s.cj1i_1 (nx - 1) pinfC
      cj1i0 := colAdd s.cj1i0 (nx - 1) pinfC
      cj1i1 := colAdd s.cj1i1 (nx - 1) pinfC
      cj2i0 := colAdd (colAdd s.cj2i0 (nx - 1) pinfC) (nx - 2) pinfC }
  | .ZeroMoment0Shear =>
    Except.ok { s with
      cj_2i0 := colAdd (colAdd s.cj_2i0 (nx - 1)
        (fun i => cij.cj2i0 i (nx - 1))) (nx - 2)
        (fun i => cij.cj2i0 i (nx - 2))
      cj_1i_1 := colAdd s.cj_1i_1 (nx - 1) (fun i => -(cij.cj1i_1 i (nx - 1)))
      cj_1i0 := colAdd (colAdd s.cj_1i0 (nx - 1)
        (fun i => -4 * cij.cj2i0 i (nx - 1) - cij.cj1i0 i (nx - 1))) (nx - 2)
        (fun i => -2 * cij.cj2i0 i (nx - 2))
      cj_1i1 := colAdd s.cj_1i1 (nx - 1) (fun i => -(cij.cj1i1 i (nx - 1)))
      cj0i_1 := colAdd s.cj0i_1 (nx - 1) (fun i => 2 * cij.cj1i_1 i (nx - 1))
      cj0i0 := colAdd s.cj0i0 (nx - 1)
        (fun i => 4 * cij.cj2i0 i (nx - 1) + 2 * cij.cj1i0 i (nx - 1))
      cj0i1 := colAdd s.cj0i1 (nx - 1) (fun i => 2 * cij.cj1i1 i (nx - 1))
      cj1i_1 := colAdd s.cj1i_1 (nx - 1) pinfC
      cj1i0 := colAdd (colAdd s.cj1i0 (nx - 1) pinfC) (nx - 2)
        (fun i => 2 * cij.cj2i0 i (nx - 2))
      cj1i1 := colAdd s.cj1i1 (nx - 1) pinfC
      cj2i0 := colAdd (colAdd s.cj2i0 (nx - 1) pinfC) (nx - 2) pinfC }
  | .ZeroSlope0Shear =>
    Except.ok { s with
      cj_2i0 := colAdd (colAdd s.cj_2i0 (nx - 1)
        (fun i => cij.cj2i0 i (nx - 1))) (nx - 2)
        (fun i => cij.cj2i0 i (nx - 2))
      cj_1i_1 := colAdd s.cj_1i_1 (nx - 1) (fun i => cij.cj1i_1 i (nx - 1))
      cj_1i0 := colAdd s.cj_1i0 (nx - 1) (fun i => cij.cj1i0 i (nx - 1))
      cj_1i1 := colAdd s.cj_1i1 (nx - 1) (fun i => cij.cj1i1 i (nx - 1))
      cj1i_1 := colAdd s.cj1i_1 (nx - 1) pinfC
      cj1i0 := colAdd s.cj1i0 (nx - 1) pinfC
      cj1i1 := colAdd s.cj1i1 (nx - 1) pinfC
      cj2i0 := colAdd (colAdd s.cj2i0 (nx - 1) pinfC) (nx - 2) pinfC }
  | .Mirror =>
    Except.ok { s with
      cj_2i0 := colAdd s.cj_2i0 (nx - 1) (fun i => cij.cj2i0 i (nx - 1))
      cj_1i_1 := colAdd s.cj_1i_1 (nx - 1) (fun i => cij.cj1i_1 i (nx - 1))
      cj_1i0 := colAdd s.cj_1i0 (nx - 1) (fun i => cij.cj1i0 i (nx - 1))
      cj_1i1 := colAdd s.cj_1i1 (nx - 1) (fun i => cij.cj1i1 i (nx - 1))
      cj0i0 := colAdd s.cj0i0 (nx - 2) (fun i => cij.cj2i0 i (nx - 2))
      cj1i_1 := colAdd s.cj1i_1 (nx - 1) pinfC
      cj1i0 := colAdd s.cj1i0 (nx - 1) pinfC
      cj1i1 := colAdd s.cj1i1 (nx - 1) pinfC
      cj2i0 := colAdd (colAdd s.cj2i0 (nx - 1) pinfC) (nx - 2) pinfC }

/-- North block of BC_Flexure (lines 895-1019): rows i = 0 and i = 1.
For a paired Periodic North edge the source only passes (the wraparound is
handled by the sparse-diagonal layout). -/
def northBlock (N S : BCLabel) (cij s : CoeffArrays) :
    Except String CoeffArrays :=
  match N with
  | .Periodic =>
    match S with
    | .Periodic => Except.ok s
    | _ =>
      Except.error
        "Not physical to have one wrap-around boundary but not its pair."
  | .Dirichlet0 =>
    Except.ok { s with
      cj_1i_1 := rowSetNanNotInf s.cj_1i_1 0 }
  | .ZeroMoment0Shear =>
    Except.ok { s with
      cj_1i_1 := rowSetNanNotInf s.cj_1i_1 0
      cj_1i0 := rowAdd s.cj_1i0 0 (fun j => 2 * cij.cj_1i_1 0 j)
      cj_1i1 := rowAdd s.cj_1i1 0 (fun j => -(cij.cj_1i_1 0 j))
      cj0i_1 := rowAdd s.cj0i_1 1 (fun j => 2 * cij.cj0i_2 1 j)
      cj0i0 := rowAdd s.cj0i0 0
        (fun j => 4 * cij.cj0i_2 0 j + 2 * cij.cj0i_1 0 j)
      cj0i1 := rowAdd (rowAdd s.cj0i1 0
        (fun j => -4 * cij.cj0i_2 0 j - cij.cj0i_1 0 j)) 1
        (fun j => -2 * cij.cj0i_2 1 j)
      cj0i2 := rowAdd (rowAdd s.cj0i2 0 (fun j => cij.cj0i_2 0 j)) 1
        (fun j => cij.cj0i_2 1 j)
      cj1i0 := rowAdd s.cj1i0 0 (fun j => 2 * cij.cj1i_1 0 j)
      cj1i1 := rowAdd s.cj1i1 0 (fun j => -(cij.cj1i_1 0 j)) }
  | .ZeroSlope0Shear =>
    Except.ok { s with
      cj_1i_1 := rowSetNanNotInf s.cj_1i_1 0
      cj_1i1 := rowAdd s.cj_1i1 0 (fun j => cij.cj_1i_1 0 j)
      cj0i1 := rowAdd s.cj0i1 0 (fun j => cij.cj0i_1 0 j)
      cj0i2 := rowAdd (rowAdd s.cj0i2 0 (fun j => cij.cj0i_2 0 j)) 1
        (fun j => cij.cj0i_2 1 j)
      cj1i1 := rowAdd s.cj1i1 0 (fun j => cij.cj1i_1 0 j) }
  | .Mirror =>
    Except.ok { s with
      cj_1i_1 := rowSetNanNotInf s.cj_1i_1 0
      cj_1i1 := rowAdd s.cj_1i1 0 (fun j => cij.cj_1i_1 0 j)
      cj0i0 := rowAdd s.cj0i0 1 (fun j => cij.cj0i_2 1 j)
      cj0i1 := rowAdd s.cj0i1 0 (fun j => cij.cj0i_1 0 j)
      cj0i2 := rowAdd s.cj0i2 0 (fun j => cij.cj0i_2 0 j)
      cj1i1 := rowAdd s.cj1i1 0 (fun j => cij.cj1i_1 0 j) }

/-- South block of BC_Flexure (lines 1021-1145): rows ny-2 (-2) and
ny-1 (-1).  The Dirichlet0 South block is all `+= 0`, an identity. -/
def southBlock (S N : BCLabel) (ny : ℕ) (cij s : CoeffArrays) :
    Except String CoeffArrays :=
  match S with
  | .Periodic =>
    match N with
    | .Periodic => Except.ok s
    | _ =>
      Except.error
        "Not physical to have one wrap-around boundary but not its pair."
  | .Dirichlet0 => Except.ok s
  | .ZeroMoment0Shear =>
    Except.ok { s with
      cj_1i_1 := rowAdd s.cj_1i_1 (ny - 1)
        (fun j => -(cij.cj1i1 (ny - 1) j))
      cj_1i0 := rowAdd s.cj_1i0 (ny - 1) (fun j => 2 * cij.cj1i1 (ny - 1) j)
      cj0i_2 := rowAdd (rowAdd s.cj0i_2 (ny - 2)
        (fun j => cij.cj0i2 (ny - 2) j)) (ny - 1)
        (fun j => cij.cj0i2 (ny - 1) j)
      cj0i_1 := rowAdd (rowAdd s.cj0i_1 (ny - 2)
        (fun j => -2 * cij.cj0i2 (ny - 2) j)) (ny - 1)
        (fun j => -4 * cij.cj0i2 (ny - 1) j - cij.cj0i1 (ny - 1) j)
      cj0i0 := rowAdd s.cj0i0 (ny - 1)
        (fun j => 4 * cij.cj0i2 (ny - 1) j + 2 * cij.cj0i1 (ny - 1) j)
      cj0i1 := rowAdd s.cj0i1 (ny - 2) (fun j => 2 * cij.cj0i2 (ny - 2) j)
      cj1i_1 := rowAdd s.cj1i_1 (ny - 1)
        (fun j => -(cij.cj_1i1 (ny - 1) j))
      cj1i0 := rowAdd s.cj1i0 (ny - 1) (fun j => 2 * cij.cj_1i1 (ny - 1) j) }
  | .ZeroSlope0Shear =>
    Except.ok { s with
      cj_1i_1 := rowAdd s.cj_1i_1 (ny - 1) (fun j => cij.cj_1i1 (ny - 1) j)
      cj0i_2 := rowAdd (rowAdd s.cj0i_2 (ny - 2)
        (fun j => cij.cj0i2 (ny - 2) j)) (ny - 1)
        (fun j => cij.cj0i2 (ny - 1) j)
      cj0i_1 := rowAdd s.cj0i_1 (ny - 1) (fun j => cij.cj0i1 (ny - 1) j)
      cj1i_1 := rowAdd s.cj1i_1 (ny - 1) (fun j => cij.cj1i1 (ny - 1) j) }
  | .Mirror =>
    Except.ok { s with
      cj_1i_1 := rowAdd s.cj_1i_1 (ny - 1) (fun j => cij.cj_1i1 (ny - 1) j)
      cj0i_2 := rowAdd s.cj0i_2 (ny - 1) (fun j => cij.cj0i2 (ny - 1) j)
      cj0i_1 := rowAdd s.cj0i_1 (ny - 1) (fun j => cij.cj0i1 (ny - 1) j)
      cj0i0 := rowAdd s.cj0i0 (ny - 2) (fun j => cij.cj0i2 (ny - 2) j)
      cj1i_1 := rowAdd s.cj1i_1 (ny - 1) (fun j => cij.cj1i1 (ny - 1) j) }

/-- Corner section of BC_Flexure, part 1 (lines 1164-1175):
0Slope0Shear and/or Mirror on two adjacent edges. -/
def cornersZSM (W E N S : BCLabel) (nx ny : ℕ) (cij s : CoeffArrays) :
    CoeffArrays :=
  let s := if (N = .ZeroSlope0Shear ∨ N = .Mirror)
      ∧ (W = .ZeroSlope0Shear ∨ W = .Mirror) then
    { s with cj1i1 := cellAdd s.cj1i1 0 0 (cij.cj_1i_1 0 0) } else s
  let s := if (N = .ZeroSlope0Shear ∨ N = .Mirror)
      ∧ (E = .ZeroSlope0Shear ∨ E = .Mirror) then
    { s with cj_1i1 := cellAdd s.cj_1i1 0 (nx - 1) (cij.cj1i_1 0 (nx - 1)) }
    else s
  let s := if (S = .ZeroSlope0Shear ∨ S = .Mirror)
      ∧ (W = .ZeroSlope0Shear ∨ W = .Mirror) then
    { s with cj1i_1 := cellAdd s.cj1i_1 (ny - 1) 0 (cij.cj_1i1 (ny - 1) 0) }
    else s
  let s := if (S = .ZeroSlope0Shear ∨ S = .Mirror)
      ∧ (E = .ZeroSlope0Shear ∨ E = .Mirror) then
    { s with cj_1i_1 :=
        cellAdd s.cj_1i_1 (ny - 1) (nx - 1) (cij.cj1i1 (ny - 1) (nx - 1)) }
    else s
  s

/-- Corner section of BC_Flexure, part 2 (lines 1180-1191):
0Moment0Shear meeting 0Moment0Shear. -/
def cornersZM (W E N S : BCLabel) (nx ny : ℕ) (cij s : CoeffArrays) :
    CoeffArrays :=
  let s := if N = .ZeroMoment0Shear ∧ W = .ZeroMoment0Shear then
    { s with cj0i0 := cellAdd s.cj0i0 0 0 (2 * cij.cj_1i_1 0 0)
             cj1i1 := cellSub s.cj1i1 0 0 (cij.cj_1i_1 0 0) } else s
  let s := if N = .ZeroMoment0Shear ∧ E = .ZeroMoment0Shear then
    { s with cj0i0 := cellAdd s.cj0i0 0 (nx - 1) (2 * cij.cj_1i_1 0 (nx - 1))
             cj_1i1 := cellSub s.cj_1i1 0 (nx - 1) (cij.cj1i_1 0 (nx - 1)) }
    else s
  let s := if S = .ZeroMoment0Shear ∧ W = .ZeroMoment0Shear then
    { s with cj0i0 := cellAdd s.cj0i0 (ny - 1) 0 (2 * cij.cj_1i_1 (ny - 1) 0)
             cj1i_1 := cellSub s.cj1i_1 (ny - 1) 0 (cij.cj_1i1 (ny - 1) 0) }
    else s
  let s := if S = .ZeroMoment0Shear ∧ E = .ZeroMoment0Shear then
    { s with cj0i0 := cellAdd s.cj0i0 (ny - 1) (nx - 1)
               (2 * cij.cj_1i_1 (ny - 1) (nx - 1))
             cj_1i_1 := cellSub s.cj_1i_1 (ny - 1) (nx - 1)
               (cij.cj1i1 (ny - 1) (nx - 1)) }
    else s
  s

/-- Corner section of BC_Flexure, part 3 (lines 1216-1227):
Mirror meeting 0Moment0Shear. -/
def cornersMZM (W E N S : BCLabel) (nx ny : ℕ) (cij s : CoeffArrays) :
    CoeffArrays :=
  let s := if (N = .Mirror ∧ W = .ZeroMoment0Shear)
      ∨ (W = .Mirror ∧ N = .ZeroMoment0Shear) then
    { s with cj1i1 := cellAdd s.cj1i1 0 0 (cij.cj_1i_1 0 0) } else s
  let s := if (N = .Mirror ∧ E = .ZeroMoment0Shear)
      ∨ (E = .Mirror ∧ N = .ZeroMoment0Shear) then
    { s with cj_1i1 := cellAdd s.cj_1i1 0 (nx - 1) (cij.cj1i_1 0 (nx - 1)) }
    else s
  let s := if (S = .Mirror ∧ W = .ZeroMoment0Shear)
      ∨ (W = .Mirror ∧ S = .ZeroMoment0Shear) then
    { s with cj1i_1 := cellAdd s.cj1i_1 (ny - 1) 0 (cij.cj_1i1 (ny - 1) 0) }
    else s
  let s := if (S = .Mirror ∧ E = .ZeroMoment0Shear)
      ∨ (E = .Mirror ∧ S = .ZeroMoment0Shear) then
    { s with cj_1i_1 :=
        cellAdd s.cj_1i_1 (ny - 1) (nx - 1) (cij.cj1i1 (ny - 1) (nx - 1)) }
    else s
  s

/-- Corner section of BC_Flexure, part 4 (lines 1234-1249):
0Moment0Shear meeting 0Slope0Shear. -/
def cornersZMZS (W E N S : BCLabel) (nx ny : ℕ) (cij s : CoeffArrays) :
    CoeffArrays :=
  let s := if (N = .ZeroSlope0Shear ∧ W = .ZeroMoment0Shear)
      ∨ (W = .ZeroSlope0Shear ∧ N = .ZeroMoment0Shear) then
    { s with cj0i0 := cellAdd s.cj0i0 0 0 (2 * cij.cj_1i_1 0 0)
             cj1i1 := cellSub s.cj1i1 0 0 (cij.cj_1i_1 0 0) } else s
  let s := if (N = .ZeroSlope0Shear ∧ E = .ZeroMoment0Shear)
      ∨ (E = .ZeroSlope0Shear ∧ N = .ZeroMoment0Shear) then
    { s with cj0i0 := cellAdd s.cj0i0 0 (nx - 1) (2 * cij.cj_1i_1 0 (nx - 1))
             cj1i1 := cellSub s.cj1i1 0 (nx - 1) (cij.cj_1i_1 0 (nx - 1)) }
    else s
  let s := if (S = .ZeroSlope0Shear ∧ W = .ZeroMoment0Shear)
      ∨ (W = .ZeroSlope0Shear ∧ S = .ZeroMoment0Shear) then
    { s with cj0i0 := cellAdd s.cj0i0 (ny - 1) 0 (2 * cij.cj_1i_1 (ny - 1) 0)
             cj1i_1 := cellSub s.cj1i_1 (ny - 1) 0 (cij.cj_1i1 (ny - 1) 0) }
    else s
  let s := if (S = .ZeroSlope0Shear ∧ E = .ZeroMoment0Shear)
      ∨ (E = .ZeroSlope0Shear ∧ S = .ZeroMoment0Shear) then
    { s with cj0i0 := cellAdd s.cj0i0 (ny - 1) (nx - 1)
               (2 * cij.cj_1i_1 (ny - 1) (nx - 1))
             cj_1i_1 := cellSub s.cj_1i_1 (ny - 1) (nx - 1)
               (cij.cj1i1 (ny - 1) (nx - 1)) }
    else s
  s

/-- Corner section of BC_Flexure, part 5 (lines 1258-1291): a Periodic
pair combined with the boundary conditions of the other axis.  The elif
branches of the source are flattened; label constructors are mutually
exclusive so each guard excludes its predecessor by itself. -/
def cornersPer (W E N S : BCLabel) (nx ny : ℕ) (cij s : CoeffArrays) :
    CoeffArrays :=
  let s := if (W = .Periodic ∧ E = .Periodic)
      ∧ (N = .ZeroSlope0Shear ∨ N = .Mirror) then
    { s with cj1i1 := cellAdd s.cj1i1 0 0 (cij.cj_1i_1 0 0)
             cj_1i1 := cellAdd s.cj_1i1 0 (nx - 1) (cij.cj1i_1 0 (nx - 1)) }
    else s
  let s := if (W = .Periodic ∧ E = .Periodic) ∧ N = .ZeroMoment0Shear then
    { s with cj0i0 := cellAdd (cellAdd s.cj0i0 0 0 (2 * cij.cj_1i_1 0 0))
               0 (nx - 1) (2 * cij.cj_1i_1 0 (nx - 1))
             cj1i1 := cellSub (cellSub s.cj1i1 0 0 (cij.cj_1i_1 0 0))
               0 (nx - 1) (cij.cj_1i_1 0 (nx - 1)) }
    else s
  let s := if (W = .Periodic ∧ E = .Periodic)
      ∧ (S = .ZeroSlope0Shear ∨ S = .Mirror) then
    { s with cj1i_1 := cellAdd s.cj1i_1 (ny - 1) 0 (cij.cj_1i1 (ny - 1) 0)
             cj_1i_1 := cellAdd s.cj_1i_1 (ny - 1) (nx - 1)
               (cij.cj1i1 (ny - 1) (nx - 1)) }
    else s
  let s := if (W = .Periodic ∧ E = .Periodic) ∧ S = .ZeroMoment0Shear then
    { s with cj0i0 := cellAdd (cellAdd s.cj0i0 (ny - 1) 0
               (2 * cij.cj_1i_1 (ny - 1) 0)) (ny - 1) (nx - 1)
               (2 * cij.cj_1i_1 (ny - 1) (nx - 1))
             cj1i_1 := cellSub s.cj1i_1 (ny - 1) 0 (cij.cj_1i1 (ny - 1) 0)
             cj_1i_1 := cellSub s.cj_1i_1 (ny - 1) (nx - 1)
               (cij.cj1i1 (ny - 1) (nx - 1)) }
    else s
  let s := if (N = .Periodic ∧ S = .Periodic)
      ∧ (W = .ZeroSlope0Shear ∨ W = .Mirror) then
    { s with cj1i1 := cellAdd s.cj1i1 0 0 (cij.cj_1i_1 0 0)
             cj1i_1 := cellAdd s.cj1i_1 (ny - 1) 0 (cij.cj_1i1 (ny - 1) 0) }
    else s
  let s := if (N = .Periodic ∧ S = .Periodic) ∧ W = .ZeroMoment0Shear then
    { s with cj0i0 := cellAdd (cellAdd s.cj0i0 0 0 (2 * cij.cj_1i_1 0 0))
               (ny - 1) 0 (2 * cij.cj_1i_1 (ny - 1) 0)
             cj1i1 := cellSub s.cj1i1 0 0 (cij.cj_1i_1 0 0)
             cj1i_1 := cellSub s.cj1i_1 (ny - 1) 0 (cij.cj_1i1 (ny - 1) 0) }
    else s
  let s := if (N = .Periodic ∧ S = .Periodic)
      ∧ (E = .ZeroSlope0Shear ∨ E = .Mirror) then
    { s with cj_1i1 := cellAdd s.cj_1i1 0 (nx - 1) (cij.cj1i_1 0 (nx - 1))
             cj_1i_1 := cellAdd s.cj_1i_1 (ny - 1) (nx - 1)
               (cij.cj1i1 (ny - 1) (nx - 1)) }
    else s
  let s := if (N = .Periodic ∧ S = .Periodic) ∧ E = .ZeroMoment0Shear then
    { s with cj0i0 := cellAdd (cellAdd s.cj0i0 0 (nx - 1)
               (2 * cij.cj_1i_1 0 (nx - 1))) (ny - 1) (nx - 1)
               (2 * cij.cj_1i_1 (ny - 1) (nx - 1))
             cj1i1 := cellSub s.cj1i1 0 (nx - 1) (cij.cj_1i_1 0 (nx - 1))
             cj_1i_1 := cellSub s.cj_1i_1 (ny - 1) (nx - 1)
               (cij.cj1i1 (ny - 1) (nx - 1)) }
    else s
  s

/-- Corner-interference section of BC_Flexure (lines 1147-1291): the five
sections in source order. -/
def cornersBlock (W E N S : BCLabel) (nx ny : ℕ) (cij s : CoeffArrays) :
    CoeffArrays :=
  cornersPer W E N S nx ny cij
    (cornersZMZS W E N S nx ny cij
      (cornersMZM W E N S nx ny cij
        (cornersZM W E N S nx ny cij
          (cornersZSM W E N S nx ny cij s))))

/-- BC_Flexure (lines 556-1291): West, East, North, South blocks in order,
then the corner-interference section. -/
def BC_Flexure (W E N S : BCLabel) (nx ny : ℕ) (cij s0 : CoeffArrays) :
    Except String CoeffArrays := do
  let s1 ← westBlock W E cij s0
  let s2 ← eastBlock E W nx cij s1
  let s3 ← northBlock N S cij s2
  let s4 ← southBlock S N ny cij s3
  Except.ok (cornersBlock W E N S nx ny cij s4)

/-!
## build_diags (lines 1293-1522), non-periodic assembly

Each coefficient array for neighbour offset (dx, dy) is np.roll-ed by dx
along axis 1 and dy along axis 0, the np.inf sentinels are swept to 0,
and the arrays are flattened in C order and handed to scipy spdiags with
the offsets [-2 nx, -nx-1, -nx, -nx+1, -2, -1, 0, 1, 2, nx-1, nx, nx+1,
2 nx] (line 1522).  For spdiags, the entry at (row r, column c) on
diagonal d = c - r is element c of the corresponding flattened array.
-/

/-- Flattened value at index k of a coefficient array after np.roll by
sx on axis 1 (columns) and sy on axis 0 (rows) and the inf sweep:
rolled[i, j] = a[(i - sy) mod ny, (j - sx) mod nx], read at
i = k / nx, j = k % nx. -/
def vecOf (nx ny : ℕ) (sx sy : ℤ) (f : Arr) (k : ℕ) : FVal :=
  zi (f ((((k / nx : ℕ) : ℤ) - sy) % (ny : ℤ)).toNat
        ((((k % nx : ℕ) : ℤ) - sx) % (nx : ℤ)).toNat)

/-- The 13 spdiags offsets of the no-periodic-pair branch (line 1522). -/
def fd_offsets (nx : ℕ) : List ℤ :=
  [-(2 * (nx : ℤ)), -(nx : ℤ) - 1, -(nx : ℤ), -(nx : ℤ) + 1,
   -2, -1, 0, 1, 2,
   (nx : ℤ) - 1, (nx : ℤ), (nx : ℤ) + 1, 2 * (nx : ℤ)]

/-- The (offset, flattened diagonal data) pairs handed to spdiags in the
no-periodic-pair branch: Dn2 = cj0i_2; Dn1 = cj_1i_1, cj0i_1, cj1i_1;
Mid = cj_2i0, cj_1i0, cj0i0, cj1i0, cj2i0; Up1 = cj_1i1, cj0i1, cj1i1;
Up2 = cj0i2, each rolled by its own (dx, dy) (lines 1306-1323,
1346-1350, 1516-1522). -/
def diagPairs (nx ny : ℕ) (s : CoeffArrays) : List (ℤ × (ℕ → FVal)) :=
  [(-(2 * (nx : ℤ)), vecOf nx ny 0 (-2) s.cj0i_2),
   (-(nx : ℤ) - 1, vecOf nx ny (-1) (-1) s.cj_1i_1),
   (-(nx : ℤ), vecOf nx ny 0 (-1) s.cj0i_1),
   (-(nx : ℤ) + 1, vecOf nx ny 1 (-1) s.cj1i_1),
   (-2, vecOf nx ny (-2) 0 s.cj_2i0),
   (-1, vecOf nx ny (-1) 0 s.cj_1i0),
   (0, vecOf nx ny 0 0 s.cj0i0),
   (1, vecOf nx ny 1 0 s.cj1i0),
   (2, vecOf nx ny 2 0 s.cj2i0),
   ((nx : ℤ) - 1, vecOf nx ny (-1) 1 s.cj_1i1),
   ((nx : ℤ), vecOf nx ny 0 1 s.cj0i1),
   ((nx : ℤ) + 1, vecOf nx ny 1 1 s.cj1i1),
   (2 * (nx : ℤ), vecOf nx ny 0 2 s.cj0i2)]

/-- Sum of the diagonal data matching diagonal d at column c, as scipy
dia-format storage assembles a matrix entry from its (offset, data)
pairs. -/
def diagLookup : List (ℤ × (ℕ → FVal)) → ℤ → ℕ → FVal
  | [], _, _ => FVal.fin 0
  | (o, v) :: ps, d, c =>
      if o = d then (v c).add (diagLookup ps d c) else diagLookup ps d c

/-- Entry (r, c) of the (nx ny) x (nx ny) sparse operator assembled by
the no-periodic-pair branch of build_diags. -/
def matEntry (nx ny : ℕ) (s : CoeffArrays) (r c : ℕ) : FVal :=
  if r < nx * ny ∧ c < nx * ny then
    diagLookup (diagPairs nx ny s) ((c : ℤ) - (r : ℤ)) c
  else FVal.fin 0

/-!
## BC_selector_and_coeff_matrix_creator (lines 437-464)

The pipeline of one FD coefficient-matrix construction: BC_Rigidity,
then get_coeff_values, then BC_Flexure, then build_diags, mutating one
model object.  The trace records the mutated attributes, and an error
carries the state at sys.exit time.  The three periodic branches of
build_diags are abstracted into the buildPeriodic parameter: every claim
settled here either excludes periodic pairs from assembly or fails
before assembly, so nothing is ever proved about that parameter.
-/

/-- The model attributes mutated during coefficient-matrix creation. -/
structure SolveTrace where
  Te : Arr
  D : Arr
  cij : Option CoeffArrays := none
  coeffs : Option CoeffArrays := none
  coeff_matrix : Option (ℕ → ℕ → FVal) := none

/-- BC_selector_and_coeff_matrix_creator for array-valued Te:
BC_Rigidity, get_coeff_values (working arrays start as copies of the
coeff_ij arrays), BC_Flexure, build_diags, in source order. -/
def BC_selector_and_coeff_matrix_creator (W E N S : BCLabel) (pst : String)
    (nx ny : ℕ) (Te D : Arr) (drho dx4 dy4 dx2dy2 nu g : ℚ)
    (buildPeriodic : CoeffArrays → ℕ → ℕ → FVal) :
    Except (String × SolveTrace) SolveTrace :=
  -- First, rigidity boundary conditions pad and fill Te and D
  let TeD := BC_Rigidity_array W E N S nx ny Te D
  let tr1 : SolveTrace := { Te := TeD.1, D := TeD.2 }
  -- Second, build the coefficient arrays
  match get_coeff_values_array pst TeD.2 drho dx4 dy4 dx2dy2 nu g with
  | .error m => .error (m, tr1)
  | .ok cs =>
    let tr2 := { tr1 with cij := some cs, coeffs := some cs }
    -- Third, apply boundary conditions to the coefficient arrays
    match BC_Flexure W E N S nx ny cs cs with
    | .error m => .error (m, tr2)
    | .ok s4 =>
      let tr3 := { tr2 with coeffs := some s4 }
      -- Fourth, construct the sparse diagonal array
      let M := if (W = .Periodic ∧ E = .Periodic)
          ∨ (N = .Periodic ∧ S = .Periodic) then buildPeriodic s4
        else matEntry nx ny s4
      .ok { tr3 with coeff_matrix := some M }

/-- A bundle of 13 rational-valued stencil coefficient arrays, used to
feed BC_Flexure with arbitrary finite pre-boundary-condition
coefficients. -/
structure CoeffQ where
  cj_2i0 : ℕ → ℕ → ℚ
  cj_1i_1 : ℕ → ℕ → ℚ
  cj_1i0 : ℕ → ℕ → ℚ
  cj_1i1 : ℕ → ℕ → ℚ
  cj0i_2 : ℕ → ℕ → ℚ
  cj0i_1 : ℕ → ℕ → ℚ
  cj0i0 : ℕ → ℕ → ℚ
  cj0i1 : ℕ → ℕ → ℚ
  cj0i2 : ℕ → ℕ → ℚ
  cj1i_1 : ℕ → ℕ → ℚ
  cj1i0 : ℕ → ℕ → ℚ
  cj1i1 : ℕ → ℕ → ℚ
  cj2i0 : ℕ → ℕ → ℚ

/-- Inject 13 rational coefficient arrays into FVal arrays. -/
def CoeffQ.toF (q : CoeffQ) : CoeffArrays where
  cj_2i0 := fun i j => FVal.fin (q.cj_2i0 i j)
  cj_1i_1 := fun i j => FVal.fin (q.cj_1i_1 i j)
  cj_1i0 := fun i j => FVal.fin (q.cj_1i0 i j)
  cj_1i1 := fun i j => FVal.fin (q.cj_1i1 i j)
  cj0i_2 := fun i j => FVal.fin (q.cj0i_2 i j)
  cj0i_1 := fun i j => FVal.fin (q.cj0i_1 i j)
  cj0i0 := fun i j => FVal.fin (q.cj0i0 i j)
  cj0i1 := fun i j => FVal.fin (q.cj0i1 i j)
  cj0i2 := fun i j => FVal.fin (q.cj0i2 i j)
  cj1i_1 := fun i j => FVal.fin (q.cj1i_1 i j)
  cj1i0 := fun i j => FVal.fin (q.cj1i0 i j)
  cj1i1 := fun i j => FVal.fin (q.cj1i1 i j)
  cj2i0 := fun i j => FVal.fin (q.cj2i0 i j)

/-- The all-zero rational coefficient bundle, a concrete test input. -/
def qzero : CoeffQ :=
  ⟨fun _ _ => 0, fun _ _ => 0, fun _ _ => 0, fun _ _ => 0, fun _ _ => 0,
   fun _ _ => 0, fun _ _ => 0, fun _ _ => 0, fun _ _ => 0, fun _ _ => 0,
   fun _ _ => 0, fun _ _ => 0, fun _ _ => 0⟩

/-- Pointwise agreement of the 13 working coefficient arrays of two
CoeffArrays bundles at one cell. -/
def EqAt (a b : CoeffArrays) (i j : ℕ) : Prop :=
  a.cj_2i0 i j = b.cj_2i0 i j ∧ a.cj_1i_1 i j = b.cj_1i_1 i j
  ∧ a.cj_1i0 i j = b.cj_1i0 i j ∧ a.cj_1i1 i j = b.cj_1i1 i j
  ∧ a.cj0i_2 i j = b.cj0i_2 i j ∧ a.cj0i_1 i j = b.cj0i_1 i j
  ∧ a.cj0i0 i j = b.cj0i0 i j ∧ a.cj0i1 i j = b.cj0i1 i j
  ∧ a.cj0i2 i j = b.cj0i2 i j ∧ a.cj1i_1 i j = b.cj1i_1 i j
  ∧ a.cj1i0 i j = b.cj1i0 i j ∧ a.cj1i1 i j = b.cj1i1 i j
  ∧ a.cj2i0 i j = b.cj2i0 i j

/-- The sys.exit message of the run, if the pipeline aborted. -/
def exMsg {α : Type} : Except (String × SolveTrace) α → Option String
  | .error (m, _) => some m
  | .ok _ => none

/-- The model state at sys.exit time, if the pipeline aborted. -/
def exTrace {α : Type} : Except (String × SolveTrace) α → Option SolveTrace
  | .error (_, t) => some t
  | .ok _ => none

/-- A concrete coefficient-matrix construction with an unpaired Periodic
edge: west = Periodic, east = Dirichlet0 (north = south = Dirichlet0),
5 x 5 grid, constant unit Te and D, vWC1994. -/
def C9run : Except (String × SolveTrace) SolveTrace :=
  BC_selector_and_coeff_matrix_creator .Periodic .Dirichlet0 .Dirichlet0
    .Dirichlet0 "vWC1994" 5 5 (fun _ _ => F 1) (fun _ _ => F 1)
    1 1 1 1 (1/4) 1 (fun _ _ _ => FVal.fin 0)

/-- The BC_Flexure output of the concrete 5 x 5 all-Dirichlet0 assembly
with the zero coefficient bundle (a total extraction: the all-Dirichlet0
configuration never fails). -/
def C5s : CoeffArrays :=
  match BC_Flexure .Dirichlet0 .Dirichlet0 .Dirichlet0 .Dirichlet0 5 5
      (CoeffQ.toF qzero) (CoeffQ.toF qzero) with
  | .ok s => s
  | .error _ => CoeffQ.toF qzero

/-!
## Helper lemmas
-/

theorem FVal.add_fin_zero : ∀ v : FVal, v.add (FVal.fin 0) = v := by
  intro v; cases v <;> simp [FVal.add]

theorem F_def (q : ℚ) : F q = FVal.fin q := rfl

theorem fin_add_fin (a b : ℚ) :
    FVal.fin a + FVal.fin b = FVal.fin (a + b) := rfl

theorem fin_sub_fin (a b : ℚ) :
    FVal.fin a - FVal.fin b = FVal.fin (a - b) := by
  show (FVal.fin a).sub (FVal.fin b) = _
  simp [FVal.sub, FVal.add, FVal.neg, sub_eq_add_neg]

theorem fin_mul_fin (a b : ℚ) :
    FVal.fin a * FVal.fin b = FVal.fin (a * b) := rfl

theorem neg_fin (a : ℚ) : -(FVal.fin a) = FVal.fin (-a) := rfl

theorem fin_div_fin (a b : ℚ) (hb : b ≠ 0) :
    FVal.fin a / FVal.fin b = FVal.fin (a / b) := by
  show (FVal.fin a).div (FVal.fin b) = _
  simp [FVal.div, hb]

theorem ofNat_fin (n : ℕ) [n.AtLeastTwo] :
    (OfNat.ofNat n : FVal) = FVal.fin (OfNat.ofNat n) := rfl

theorem fin_injEq (a b : ℚ) : (FVal.fin a = FVal.fin b) ↔ a = b := by
  simp

theorem zi_fin (q : ℚ) : zi (FVal.fin q) = FVal.fin q := rfl

theorem cell_lt {nx ny i j : ℕ} (hi : i < ny) (hj : j < nx) :
    i * nx + j < nx * ny := by
  calc i * nx + j < i * nx + nx := by omega
    _ = (i + 1) * nx := by ring
    _ ≤ ny * nx := Nat.mul_le_mul_right nx hi
    _ = nx * ny := Nat.mul_comm ny nx

/-- Accumulating fold of spatialDomainNoGrid, expressed as a list sum. -/
theorem foldl_accum_eq_sum {γ : Type} (l : List γ) (w0 : γ → ℝ)
    (f : γ → γ → ℝ) (k : γ) :
    (l.foldl (fun w i => fun p => w p + f i p) w0) k
      = w0 k + (l.map (fun i => f i k)).sum := by
  induction l generalizing w0 with
  | nil => simp
  | cons a l ih =>
      simp only [List.foldl_cons, List.map_cons, List.sum_cons]
      rw [ih]
      ring

theorem diagLookup_miss (o : ℤ) (v : ℕ → FVal) (ps : List (ℤ × (ℕ → FVal)))
    (d : ℤ) (c : ℕ) (h : o ≠ d) :
    diagLookup ((o, v) :: ps) d c = diagLookup ps d c := by
  simp [diagLookup, h]

theorem diagLookup_zero (l : List (ℤ × (ℕ → FVal))) (d : ℤ) (c : ℕ)
    (h : ∀ p ∈ l, p.1 ≠ d) : diagLookup l d c = FVal.fin 0 := by
  induction l with
  | nil => rfl
  | cons p ps ih =>
      obtain ⟨o, v⟩ := p
      rw [diagLookup_miss o v ps d c (h (o, v) (List.mem_cons_self _ _))]
      exact ih fun q hq => h q (List.mem_cons_of_mem _ hq)

theorem diagLookup_head (o : ℤ) (v : ℕ → FVal) (ps : List (ℤ × (ℕ → FVal)))
    (d : ℤ) (c : ℕ) (ho : o = d) (h : ∀ p ∈ ps, p.1 ≠ d) :
    diagLookup ((o, v) :: ps) d c = v c := by
  simp only [diagLookup, if_pos ho]
  rw [diagLookup_zero ps d c h, FVal.add_fin_zero]

theorem diagPairs_map_fst (nx ny : ℕ) (s : CoeffArrays) :
    (diagPairs nx ny s).map Prod.fst = fd_offsets nx := rfl

theorem vecOf_at (nx ny : ℕ) (sx sy : ℤ) (f : Arr) (i j i2 j2 : ℕ)
    (hi : i < ny) (hj : j < nx)
    (hi2 : (i2 : ℤ) = i + sy) (hj2 : (j2 : ℤ) = j + sx)
    (hi2b : i2 < ny) (hj2b : j2 < nx) :
    vecOf nx ny sx sy f (i2 * nx + j2) = zi (f i j) := by
  have hnx : 0 < nx := lt_of_le_of_lt (Nat.zero_le j) hj
  have hdiv : (i2 * nx + j2) / nx = i2 := by
    rw [Nat.mul_comm, Nat.mul_add_div hnx, Nat.div_eq_of_lt hj2b, Nat.add_zero]
  have hmod : (i2 * nx + j2) % nx = j2 := by
    rw [Nat.mul_comm, Nat.mul_add_mod, Nat.mod_eq_of_lt hj2b]
  unfold vecOf
  rw [hdiv, hmod]
  have hrow : (((i2 : ℤ) - sy) % (ny : ℤ)).toNat = i := by
    have h1 : (i2 : ℤ) - sy = (i : ℤ) := by omega
    rw [h1, Int.emod_eq_of_lt (Int.natCast_nonneg i) (by exact_mod_cast hi),
      Int.toNat_natCast]
  have hcol : (((j2 : ℤ) - sx) % (nx : ℤ)).toNat = j := by
    have h1 : (j2 : ℤ) - sx = (j : ℤ) := by omega
    rw [h1, Int.emod_eq_of_lt (Int.natCast_nonneg j) (by exact_mod_cast hj),
      Int.toNat_natCast]
  rw [hrow, hcol]

theorem place_cj0i_2 (nx ny : ℕ) (h5 : 5 ≤ nx) (s : CoeffArrays)
    (i j : ℕ) (h2i : 2 ≤ i) (hi : i < ny) (hj : j < nx) :
    matEntry nx ny s (i * nx + j) ((i - 2) * nx + j)
      = zi (s.cj0i_2 i j) := by
  obtain ⟨i2, rfl⟩ : ∃ i2, i = i2 + 2 := ⟨i - 2, by omega⟩
  simp only [Nat.add_sub_cancel]
  have hr : (i2 + 2) * nx + j < nx * ny := cell_lt (by omega) (by omega)
  have hc : i2 * nx + j < nx * ny := cell_lt (by omega) (by omega)
  unfold matEntry
  rw [if_pos ⟨hr, hc⟩,
    show ((i2 * nx + j : ℕ) : ℤ) - (((i2 + 2) * nx + j : ℕ) : ℤ) = -(2 * (nx : ℤ)) by push_cast; ring]
  unfold diagPairs
  rw [diagLookup_head _ _ _ _ _ rfl (by
    intro p hp
    fin_cases hp <;> dsimp only <;> omega)]
  exact vecOf_at nx ny 0 (-2) (s.cj0i_2) (i2 + 2) j i2 j
    (by omega) (by omega) (by omega) (by omega) (by omega) (by omega)

theorem place_cj_1i_1 (nx ny : ℕ) (h5 : 5 ≤ nx) (s : CoeffArrays)
    (i j : ℕ) (h1i : 1 ≤ i) (hi : i < ny) (h1j : 1 ≤ j) (hj : j < nx) :
    matEntry nx ny s (i * nx + j) ((i - 1) * nx + (j - 1))
      = zi (s.cj_1i_1 i j) := by
  obtain ⟨i2, rfl⟩ : ∃ i2, i = i2 + 1 := ⟨i - 1, by omega⟩
  obtain ⟨j2, rfl⟩ : ∃ j2, j = j2 + 1 := ⟨j - 1, by omega⟩
  simp only [Nat.add_sub_cancel]
  have hr : (i2 + 1) * nx + (j2 + 1) < nx * ny := cell_lt (by omega) (by omega)
  have hc : i2 * nx + j2 < nx * ny := cell_lt (by omega) (by omega)
  unfold matEntry
  rw [if_pos ⟨hr, hc⟩,
    show ((i2 * nx + j2 : ℕ) : ℤ) - (((i2 + 1) * nx + (j2 + 1) : ℕ) : ℤ) = -(nx : ℤ) - 1 by push_cast; ring]
  unfold diagPairs
  rw [diagLookup_miss _ _ _ _ _ (by omega)]
  rw [diagLookup_head _ _ _ _ _ rfl (by
    intro p hp
    fin_cases hp <;> dsimp only <;> omega)]
  exact vecOf_at nx ny (-1) (-1) (s.cj_1i_1) (i2 + 1) (j2 + 1) i2 j2
    (by omega) (by omega) (by omega) (by omega) (by omega) (by omega)

theorem place_cj0i_1 (nx ny : ℕ) (h5 : 5 ≤ nx) (s : CoeffArrays)
    (i j : ℕ) (h1i : 1 ≤ i) (hi : i < ny) (hj : j < nx) :
    matEntry nx ny s (i * nx + j) ((i - 1) * nx + j)
      = zi (s.cj0i_1 i j) := by
  obtain ⟨i2, rfl⟩ : ∃ i2, i = i2 + 1 := ⟨i - 1, by omega⟩
  simp only [Nat.add_sub_cancel]
  have hr : (i2 + 1) * nx + j < nx * ny := cell_lt (by omega) (by omega)
  have hc : i2 * nx + j < nx * ny := cell_lt (by omega) (by omega)
  unfold matEntry
  rw [if_pos ⟨hr, hc⟩,
    show ((i2 * nx + j : ℕ) : ℤ) - (((i2 + 1) * nx + j : ℕ) : ℤ) = -(nx : ℤ) by push_cast; ring]
  unfold diagPairs
  rw [diagLookup_miss _ _ _ _ _ (by omega)]
  rw [diagLookup_miss _ _ _ _ _ (by omega)]
  rw [diagLookup_head _ _ _ _ _ rfl (by
    intro p hp
    fin_cases hp <;> dsimp only <;> omega)]
  exact vecOf_at nx ny 0 (-1) (s.cj0i_1) (i2 + 1) j i2 j
    (by omega) (by omega) (by omega) (by omega) (by omega) (by omega)

theorem place_cj1i_1 (nx ny : ℕ) (h5 : 5 ≤ nx) (s : CoeffArrays)
    (i j : ℕ) (h1i : 1 ≤ i) (hi : i < ny) (hj1 : j + 1 < nx) :
    matEntry nx ny s (i * nx + j) ((i - 1) * nx + (j + 1))
      = zi (s.cj1i_1 i j) := by
  obtain ⟨i2, rfl⟩ : ∃ i2, i = i2 + 1 := ⟨i - 1, by omega⟩
  simp only [Nat.add_sub_cancel]
  have hr : (i2 + 1) * nx + j < nx * ny := cell_lt (by omega) (by omega)
  have hc : i2 * nx + (j + 1) < nx * ny := cell_lt (by omega) (by omega)
  unfold matEntry
  rw [if_pos ⟨hr, hc⟩,
    show ((i2 * nx + (j + 1) : ℕ) : ℤ) - (((i2 + 1) * nx + j : ℕ) : ℤ) = -(nx : ℤ) + 1 by push_cast; ring]
  unfold diagPairs
  rw [diagLookup_miss _ _ _ _ _ (by omega)]
  rw [diagLookup_miss _ _ _ _ _ (by omega)]
  rw [diagLookup_miss _ _ _ _ _ (by omega)]
  rw [diagLookup_head _ _ _ _ _ rfl (by
    intro p hp
    fin_cases hp <;> dsimp only <;> omega)]
  exact vecOf_at nx ny 1 (-1) (s.cj1i_1) (i2 + 1) j i2 (j + 1)
    (by omega) (by omega) (by omega) (by omega) (by omega) (by omega)

theorem place_cj_2i0 (nx ny : ℕ) (h5 : 5 ≤ nx) (s : CoeffArrays)
    (i j : ℕ) (hi : i < ny) (h2j : 2 ≤ j) (hj : j < nx) :
    matEntry nx ny s (i * nx + j) (i * nx + (j - 2))
      = zi (s.cj_2i0 i j) := by
  obtain ⟨j2, rfl⟩ : ∃ j2, j = j2 + 2 := ⟨j - 2, by omega⟩
  simp only [Nat.add_sub_cancel]
  have hr : i * nx + (j2 + 2) < nx * ny := cell_lt (by omega) (by omega)
  have hc : i * nx + j2 < nx * ny := cell_lt (by omega) (by omega)
  unfold matEntry
  rw [if_pos ⟨hr, hc⟩,
    show ((i * nx + j2 : ℕ) : ℤ) - ((i * nx + (j2 + 2) : ℕ) : ℤ) = (-2 : ℤ) by push_cast; ring]
  unfold diagPairs
  rw [diagLookup_miss _ _ _ _ _ (by omega)]
  rw [diagLookup_miss _ _ _ _ _ (by omega)]
  rw [diagLookup_miss _ _ _ _ _ (by omega)]
  rw [diagLookup_miss _ _ _ _ _ (by omega)]
  rw [diagLookup_head _ _ _ _ _ rfl (by
    intro p hp
    fin_cases hp <;> dsimp only <;> omega)]
  exact vecOf_at nx ny (-2) 0 (s.cj_2i0) i (j2 + 2) i j2
    (by omega) (by omega) (by omega) (by omega) (by omega) (by omega)

theorem place_cj_1i0 (nx ny : ℕ) (h5 : 5 ≤ nx) (s : CoeffArrays)
    (i j : ℕ) (hi : i < ny) (h1j : 1 ≤ j) (hj : j < nx) :
    matEntry nx ny s (i * nx + j) (i * nx + (j - 1))
      = zi (s.cj_1i0 i j) := by
  obtain ⟨j2, rfl⟩ : ∃ j2, j = j2 + 1 := ⟨j - 1, by omega⟩
  simp only [Nat.add_sub_cancel]
  have hr : i * nx + (j2 + 1) < nx * ny := cell_lt (by omega) (by omega)
  have hc : i * nx + j2 < nx * ny := cell_lt (by omega) (by omega)
  unfold matEntry
  rw [if_pos ⟨hr, hc⟩,
    show ((i * nx + j2 : ℕ) : ℤ) - ((i * nx + (j2 + 1) : ℕ) : ℤ) = (-1 : ℤ) by push_cast; ring]
  unfold diagPairs
  rw [diagLookup_miss _ _ _ _ _ (by omega)]
  rw [diagLookup_miss _ _ _ _ _ (by omega)]
  rw [diagLookup_miss _ _ _ _ _ (by omega)]
  rw [diagLookup_miss _ _ _ _ _ (by omega)]
  rw [diagLookup_miss _ _ _ _ _ (by omega)]
  rw [diagLookup_head _ _ _ _ _ rfl (by
    intro p hp
    fin_cases hp <;> dsimp only <;> omega)]
  exact vecOf_at nx ny (-1) 0 (s.cj_1i0) i (j2 + 1) i j2
    (by omega) (by omega) (by omega) (by omega) (by omega) (by omega)

theorem place_cj0i0 (nx ny : ℕ) (h5 : 5 ≤ nx) (s : CoeffArrays)
    (i j : ℕ) (hi : i < ny) (hj : j < nx) :
    matEntry nx ny s (i * nx + j) (i * nx + j)
      = zi (s.cj0i0 i j) := by
  have hr : i * nx + j < nx * ny := cell_lt (by omega) (by omega)
  have hc : i * nx + j < nx * ny := cell_lt (by omega) (by omega)
  unfold matEntry
  rw [if_pos ⟨hr, hc⟩,
    show ((i * nx + j : ℕ) : ℤ) - ((i * nx + j : ℕ) : ℤ) = (0 : ℤ) by push_cast; ring]
  unfold diagPairs
  rw [diagLookup_miss _ _ _ _ _ (by omega)]
  rw [diagLookup_miss _ _ _ _ _ (by omega)]
  rw [diagLookup_miss _ _ _ _ _ (by omega)]
  rw [diagLookup_miss _ _ _ _ _ (by omega)]
  rw [diagLookup_miss _ _ _ _ _ (by omega)]
  rw [diagLookup_miss _ _ _ _ _ (by omega)]
  rw [diagLookup_head _ _ _ _ _ rfl (by
    intro p hp
    fin_cases hp <;> dsimp only <;> omega)]
  exact vecOf_at nx ny 0 0 (s.cj0i0) i j i j
    (by omega) (by omega) (by omega) (by omega) (by omega) (by omega)

theorem place_cj1i0 (nx ny : ℕ) (h5 : 5 ≤ nx) (s : CoeffArrays)
    (i j : ℕ) (hi : i < ny) (hj1 : j + 1 < nx) :
    matEntry nx ny s (i * nx + j) (i * nx + (j + 1))
      = zi (s.cj1i0 i j) := by
  have hr : i * nx + j < nx * ny := cell_lt (by omega) (by omega)
  have hc : i * nx + (j + 1) < nx * ny := cell_lt (by omega) (by omega)
  unfold matEntry
  rw [if_pos ⟨hr, hc⟩,
    show ((i * nx + (j + 1) : ℕ) : ℤ) - ((i * nx + j : ℕ) : ℤ) = (1 : ℤ) by push_cast; ring]
  unfold diagPairs
  rw [diagLookup_miss _ _ _ _ _ (by omega)]
  rw [diagLookup_miss _ _ _ _ _ (by omega)]
  rw [diagLookup_miss _ _ _ _ _ (by omega)]
  rw [diagLookup_miss _ _ _ _ _ (by omega)]
  rw [diagLookup_miss _ _ _ _ _ (by omega)]
  rw [diagLookup_miss _ _ _ _ _ (by omega)]
  rw [diagLookup_miss _ _ _ _ _ (by omega)]
  rw [diagLookup_head _ _ _ _ _ rfl (by
    intro p hp
    fin_cases hp <;> dsimp only <;> omega)]
  exact vecOf_at nx ny 1 0 (s.cj1i0) i j i (j + 1)
    (by omega) (by omega) (by omega) (by omega) (by omega) (by omega)

theorem place_cj2i0 (nx ny : ℕ) (h5 : 5 ≤ nx) (s : CoeffArrays)
    (i j : ℕ) (hi : i < ny) (hj2 : j + 2 < nx) :
    matEntry nx ny s (i * nx + j) (i * nx + (j + 2))
      = zi (s.cj2i0 i j) := by
  have hr : i * nx + j < nx * ny := cell_lt (by omega) (by omega)
  have hc : i * nx + (j + 2) < nx * ny := cell_lt (by omega) (by omega)
  unfold matEntry
  rw [if_pos ⟨hr, hc⟩,
    show ((i * nx + (j + 2) : ℕ) : ℤ) - ((i * nx + j : ℕ) : ℤ) = (2 : ℤ) by push_cast; ring]
  unfold diagPairs
  rw [diagLookup_miss _ _ _ _ _ (by omega)]
  rw [diagLookup_miss _ _ _ _ _ (by omega)]
  rw [diagLookup_miss _ _ _ _ _ (by omega)]
  rw [diagLookup_miss _ _ _ _ _ (by omega)]
  rw [diagLookup_miss _ _ _ _ _ (by omega)]
  rw [diagLookup_miss _ _ _ _ _ (by omega)]
  rw [diagLookup_miss _ _ _ _ _ (by omega)]
  rw [diagLookup_miss _ _ _ _ _ (by omega)]
  rw [diagLookup_head _ _ _ _ _ rfl (by
    intro p hp
    fin_cases hp <;> dsimp only <;> omega)]
  exact vecOf_at nx ny 2 0 (s.cj2i0) i j i (j + 2)
    (by omega) (by omega) (by omega) (by omega) (by omega) (by omega)

theorem place_cj_1i1 (nx ny : ℕ) (h5 : 5 ≤ nx) (s : CoeffArrays)
    (i j : ℕ) (hi1 : i + 1 < ny) (h1j : 1 ≤ j) (hj : j < nx) :
    matEntry nx ny s (i * nx + j) ((i + 1) * nx + (j - 1))
      = zi (s.cj_1i1 i j) := by
  obtain ⟨j2, rfl⟩ : ∃ j2, j = j2 + 1 := ⟨j - 1, by omega⟩
  simp only [Nat.add_sub_cancel]
  have hr : i * nx + (j2 + 1) < nx * ny := cell_lt (by omega) (by omega)
  have hc : (i + 1) * nx + j2 < nx * ny := cell_lt (by omega) (by omega)
  unfold matEntry
  rw [if_pos ⟨hr, hc⟩,
    show (((i + 1) * nx + j2 : ℕ) : ℤ) - ((i * nx + (j2 + 1) : ℕ) : ℤ) = (nx : ℤ) - 1 by push_cast; ring]
  unfold diagPairs
  rw [diagLookup_miss _ _ _ _ _ (by omega)]
  rw [diagLookup_miss _ _ _ _ _ (by omega)]
  rw [diagLookup_miss _ _ _ _ _ (by omega)]
  rw [diagLookup_miss _ _ _ _ _ (by omega)]
  rw [diagLookup_miss _ _ _ _ _ (by omega)]
  rw [diagLookup_miss _ _ _ _ _ (by omega)]
  rw [diagLookup_miss _ _ _ _ _ (by omega)]
  rw [diagLookup_miss _ _ _ _ _ (by omega)]
  rw [diagLookup_miss _ _ _ _ _ (by omega)]
  rw [diagLookup_head _ _ _ _ _ rfl (by
    intro p hp
    fin_cases hp <;> dsimp only <;> omega)]
  exact vecOf_at nx ny (-1) 1 (s.cj_1i1) i (j2 + 1) (i + 1) j2
    (by omega) (by omega) (by omega) (by omega) (by omega) (by omega)

theorem place_cj0i1 (nx ny : ℕ) (h5 : 5 ≤ nx) (s : CoeffArrays)
    (i j : ℕ) (hi1 : i + 1 < ny) (hj : j < nx) :
    matEntry nx ny s (i * nx + j) ((i + 1) * nx + j)
      = zi (s.cj0i1 i j) := by
  have hr : i * nx + j < nx * ny := cell_lt (by omega) (by omega)
  have hc : (i + 1) * nx + j < nx * ny := cell_lt (by omega) (by omega)
  unfold matEntry
  rw [if_pos ⟨hr, hc⟩,
    show (((i + 1) * nx + j : ℕ) : ℤ) - ((i * nx + j : ℕ) : ℤ) = (nx : ℤ) by push_cast; ring]
  unfold diagPairs
  rw [diagLookup_miss _ _ _ _ _ (by omega)]
  rw [diagLookup_miss _ _ _ _ _ (by omega)]
  rw [diagLookup_miss _ _ _ _ _ (by omega)]
  rw [diagLookup_miss _ _ _ _ _ (by omega)]
  rw [diagLookup_miss _ _ _ _ _ (by omega)]
  rw [diagLookup_miss _ _ _ _ _ (by omega)]
  rw [diagLookup_miss _ _ _ _ _ (by omega)]
  rw [diagLookup_miss _ _ _ _ _ (by omega)]
  rw [diagLookup_miss _ _ _ _ _ (by omega)]
  rw [diagLookup_miss _ _ _ _ _ (by omega)]
  rw [diagLookup_head _ _ _ _ _ rfl (by
    intro p hp
    fin_cases hp <;> dsimp only <;> omega)]
  exact vecOf_at nx ny 0 1 (s.cj0i1) i j (i + 1) j
    (by omega) (by omega) (by omega) (by omega) (by omega) (by omega)

theorem place_cj1i1 (nx ny : ℕ) (h5 : 5 ≤ nx) (s : CoeffArrays)
    (i j : ℕ) (hi1 : i + 1 < ny) (hj1 : j + 1 < nx) :
    matEntry nx ny s (i * nx + j) ((i + 1) * nx + (j + 1))
      = zi (s.cj1i1 i j) := by
  have hr : i * nx + j < nx * ny := cell_lt (by omega) (by omega)
  have hc : (i + 1) * nx + (j + 1) < nx * ny := cell_lt (by omega) (by omega)
  unfold matEntry
  rw [if_pos ⟨hr, hc⟩,
    show (((i + 1) * nx + (j + 1) : ℕ) : ℤ) - ((i * nx + j : ℕ) : ℤ) = (nx : ℤ) + 1 by push_cast; ring]
  unfold diagPairs
  rw [diagLookup_miss _ _ _ _ _ (by omega)]
  rw [diagLookup_miss _ _ _ _ _ (by omega)]
  rw [diagLookup_miss _ _ _ _ _ (by omega)]
  rw [diagLookup_miss _ _ _ _ _ (by omega)]
  rw [diagLookup_miss _ _ _ _ _ (by omega)]
  rw [diagLookup_miss _ _ _ _ _ (by omega)]
  rw [diagLookup_miss _ _ _ _ _ (by omega)]
  rw [diagLookup_miss _ _ _ _ _ (by omega)]
  rw [diagLookup_miss _ _ _ _ _ (by omega)]
  rw [diagLookup_miss _ _ _ _ _ (by omega)]
  rw [diagLookup_miss _ _ _ _ _ (by omega)]
  rw [diagLookup_head _ _ _ _ _ rfl (by
    intro p hp
    fin_cases hp <;> dsimp only <;> omega)]
  exact vecOf_at nx ny 1 1 (s.cj1i1) i j (i + 1) (j + 1)
    (by omega) (by omega) (by omega) (by omega) (by omega) (by omega)

theorem place_cj0i2 (nx ny : ℕ) (h5 : 5 ≤ nx) (s : CoeffArrays)
    (i j : ℕ) (hi2 : i + 2 < ny) (hj : j < nx) :
    matEntry nx ny s (i * nx + j) ((i + 2) * nx + j)
      = zi (s.cj0i2 i j) := by
  have hr : i * nx + j < nx * ny := cell_lt (by omega) (by omega)
  have hc : (i + 2) * nx + j < nx * ny := cell_lt (by omega) (by omega)
  unfold matEntry
  rw [if_pos ⟨hr, hc⟩,
    show (((i + 2) * nx + j : ℕ) : ℤ) - ((i * nx + j : ℕ) : ℤ) = 2 * (nx : ℤ) by push_cast; ring]
  unfold diagPairs
  rw [diagLookup_miss _ _ _ _ _ (by omega)]
  rw [diagLookup_miss _ _ _ _ _ (by omega)]
  rw [diagLookup_miss _ _ _ _ _ (by omega)]
  rw [diagLookup_miss _ _ _ _ _ (by omega)]
  rw [diagLookup_miss _ _ _ _ _ (by omega)]
  rw [diagLookup_miss _ _ _ _ _ (by omega)]
  rw [diagLookup_miss _ _ _ _ _ (by omega)]
  rw [diagLookup_miss _ _ _ _ _ (by omega)]
  rw [diagLookup_miss _ _ _ _ _ (by omega)]
  rw [diagLookup_miss _ _ _ _ _ (by omega)]
  rw [diagLookup_miss _ _ _ _ _ (by omega)]
  rw [diagLookup_miss _ _ _ _ _ (by omega)]
  rw [diagLookup_head _ _ _ _ _ rfl (by
    intro p hp
    fin_cases hp <;> dsimp only <;> omega)]
  exact vecOf_at nx ny 0 2 (s.cj0i2) i j (i + 2) j
    (by omega) (by omega) (by omega) (by omega) (by omega) (by omega)

theorem EqAt_trans {a b c : CoeffArrays} {i j : ℕ}
    (h1 : EqAt a b i j) (h2 : EqAt b c i j) : EqAt a c i j := by
  obtain ⟨a1, a2, a3, a4, a5, a6, a7, a8, a9, a10, a11, a12, a13⟩ := h1
  obtain ⟨b1, b2, b3, b4, b5, b6, b7, b8, b9, b10, b11, b12, b13⟩ := h2
  exact ⟨a1.trans b1, a2.trans b2, a3.trans b3, a4.trans b4, a5.trans b5,
    a6.trans b6, a7.trans b7, a8.trans b8, a9.trans b9, a10.trans b10,
    a11.trans b11, a12.trans b12, a13.trans b13⟩

theorem westBlock_pres {W E : BCLabel} {cij s s' : CoeffArrays}
    (h : westBlock W E cij s = Except.ok s') {i j : ℕ}
    (hj0 : j ≠ 0) (hj1 : j ≠ 1) : EqAt s' s i j := by
  unfold EqAt
  cases W <;> cases E <;>
    simp only [westBlock] at h <;>
    first
      | exact Except.noConfusion h
      | (obtain rfl := Except.ok.inj h
         refine ⟨?_, ?_, ?_, ?_, ?_, ?_, ?_, ?_, ?_, ?_, ?_, ?_, ?_⟩ <;>
           simp [colAdd, setCol, hj0, hj1])

theorem eastBlock_pres {E W : BCLabel} {nx : ℕ} {cij s s' : CoeffArrays}
    (h : eastBlock E W nx cij s = Except.ok s') {i j : ℕ}
    (hjm1 : j ≠ nx - 1) (hjm2 : j ≠ nx - 2) : EqAt s' s i j := by
  unfold EqAt
  cases E <;> cases W <;>
    simp only [eastBlock] at h <;>
    first
      | exact Except.noConfusion h
      | (obtain rfl := Except.ok.inj h
         refine ⟨?_, ?_, ?_, ?_, ?_, ?_, ?_, ?_, ?_, ?_, ?_, ?_, ?_⟩ <;>
           simp [colAdd, setCol, hjm1, hjm2])

theorem northBlock_pres {N S : BCLabel} {cij s s' : CoeffArrays}
    (h : northBlock N S cij s = Except.ok s') {i j : ℕ}
    (hi0 : i ≠ 0) (hi1 : i ≠ 1) : EqAt s' s i j := by
  unfold EqAt
  cases N <;> cases S <;>
    simp only [northBlock] at h <;>
    first
      | exact Except.noConfusion h
      | (obtain rfl := Except.ok.inj h
         refine ⟨?_, ?_, ?_, ?_, ?_, ?_, ?_, ?_, ?_, ?_, ?_, ?_, ?_⟩ <;>
           simp [rowAdd, rowSetNanNotInf, hi0, hi1])

theorem southBlock_pres {S N : BCLabel} {ny : ℕ} {cij s s' : CoeffArrays}
    (h : southBlock S N ny cij s = Except.ok s') {i j : ℕ}
    (him1 : i ≠ ny - 1) (him2 : i ≠ ny - 2) : EqAt s' s i j := by
  unfold EqAt
  cases S <;> cases N <;>
    simp only [southBlock] at h <;>
    first
      | exact Except.noConfusion h
      | (obtain rfl := Except.ok.inj h
         refine ⟨?_, ?_, ?_, ?_, ?_, ?_, ?_, ?_, ?_, ?_, ?_, ?_, ?_⟩ <;>
           simp [rowAdd, him1, him2])

theorem EqAt_refl (a : CoeffArrays) (i j : ℕ) : EqAt a a i j :=
  ⟨rfl, rfl, rfl, rfl, rfl, rfl, rfl, rfl, rfl, rfl, rfl, rfl, rfl⟩

theorem EqAt_ite_upd {i j : ℕ} (b : Prop) [Decidable b]
    (x t : CoeffArrays) (hu : EqAt x t i j) :
    EqAt (if b then x else t) t i j := by
  split_ifs
  exacts [hu, EqAt_refl t i j]

theorem cornersZSM_pres (W E N S : BCLabel) (nx ny : ℕ)
    (cij s : CoeffArrays) {i j : ℕ} (hi0 : i ≠ 0) (him : i ≠ ny - 1)
    (hj0 : j ≠ 0) (hjm : j ≠ nx - 1) :
    EqAt (cornersZSM W E N S nx ny cij s) s i j := by
  unfold cornersZSM
  refine EqAt_trans (EqAt_ite_upd _ _ _ ?_)
    (EqAt_trans (EqAt_ite_upd _ _ _ ?_)
      (EqAt_trans (EqAt_ite_upd _ _ _ ?_) (EqAt_ite_upd _ _ _ ?_))) <;>
    · unfold EqAt
      refine ⟨?_, ?_, ?_, ?_, ?_, ?_, ?_, ?_, ?_, ?_, ?_, ?_, ?_⟩ <;>
        simp [cellAdd, cellSub, hi0, him, hj0, hjm]

theorem cornersZM_pres (W E N S : BCLabel) (nx ny : ℕ)
    (cij s : CoeffArrays) {i j : ℕ} (hi0 : i ≠ 0) (him : i ≠ ny - 1)
    (hj0 : j ≠ 0) (hjm : j ≠ nx - 1) :
    EqAt (cornersZM W E N S nx ny cij s) s i j := by
  unfold cornersZM
  refine EqAt_trans (EqAt_ite_upd _ _ _ ?_)
      (EqAt_trans (EqAt_ite_upd _ _ _ ?_)
      (EqAt_trans (EqAt_ite_upd _ _ _ ?_)
      (EqAt_ite_upd _ _ _ ?_))) <;>
    · unfold EqAt
      refine ⟨?_, ?_, ?_, ?_, ?_, ?_, ?_, ?_, ?_, ?_, ?_, ?_, ?_⟩ <;>
        simp [cellAdd, cellSub, hi0, him, hj0, hjm]

theorem cornersMZM_pres (W E N S : BCLabel) (nx ny : ℕ)
    (cij s : CoeffArrays) {i j : ℕ} (hi0 : i ≠ 0) (him : i ≠ ny - 1)
    (hj0 : j ≠ 0) (hjm : j ≠ nx - 1) :
    EqAt (cornersMZM W E N S nx ny cij s) s i j := by
  unfold cornersMZM
  refine EqAt_trans (EqAt_ite_upd _ _ _ ?_)
      (EqAt_trans (EqAt_ite_upd _ _ _ ?_)
      (EqAt_trans (EqAt_ite_upd _ _ _ ?_)
      (EqAt_ite_upd _ _ _ ?_))) <;>
    · unfold EqAt
      refine ⟨?_, ?_, ?_, ?_, ?_, ?_, ?_, ?_, ?_, ?_, ?_, ?_, ?_⟩ <;>
        simp [cellAdd, cellSub, hi0, him, hj0, hjm]

theorem cornersZMZS_pres (W E N S : BCLabel) (nx ny : ℕ)
    (cij s : CoeffArrays) {i j : ℕ} (hi0 : i ≠ 0) (him : i ≠ ny - 1)
    (hj0 : j ≠ 0) (hjm : j ≠ nx - 1) :
    EqAt (cornersZMZS W E N S nx ny cij s) s i j := by
  unfold cornersZMZS
  refine EqAt_trans (EqAt_ite_upd _ _ _ ?_)
      (EqAt_trans (EqAt_ite_upd _ _ _ ?_)
      (EqAt_trans (EqAt_ite_upd _ _ _ ?_)
      (EqAt_ite_upd _ _ _ ?_))) <;>
    · unfold EqAt
      refine ⟨?_, ?_, ?_, ?_, ?_, ?_, ?_, ?_, ?_, ?_, ?_, ?_, ?_⟩ <;>
        simp [cellAdd, cellSub, hi0, him, hj0, hjm]

theorem cornersPer_pres (W E N S : BCLabel) (nx ny : ℕ)
    (cij s : CoeffArrays) {i j : ℕ} (hi0 : i ≠ 0) (him : i ≠ ny - 1)
    (hj0 : j ≠ 0) (hjm : j ≠ nx - 1) :
    EqAt (cornersPer W E N S nx ny cij s) s i j := by
  unfold cornersPer
  refine EqAt_trans (EqAt_ite_upd _ _ _ ?_)
      (EqAt_trans (EqAt_ite_upd _ _ _ ?_)
      (EqAt_trans (EqAt_ite_upd _ _ _ ?_)
      (EqAt_trans (EqAt_ite_upd _ _ _ ?_)
      (EqAt_trans (EqAt_ite_upd _ _ _ ?_)
      (EqAt_trans (EqAt_ite_upd _ _ _ ?_)
      (EqAt_trans (EqAt_ite_upd _ _ _ ?_)
      (EqAt_ite_upd _ _ _ ?_))))))) <;>
    · unfold EqAt
      refine ⟨?_, ?_, ?_, ?_, ?_, ?_, ?_, ?_, ?_, ?_, ?_, ?_, ?_⟩ <;>
        simp [cellAdd, cellSub, hi0, him, hj0, hjm]

theorem cornersBlock_pres (W E N S : BCLabel) (nx ny : ℕ)
    (cij s : CoeffArrays) {i j : ℕ} (hi0 : i ≠ 0) (him : i ≠ ny - 1)
    (hj0 : j ≠ 0) (hjm : j ≠ nx - 1) :
    EqAt (cornersBlock W E N S nx ny cij s) s i j := by
  unfold cornersBlock
  exact EqAt_trans (cornersPer_pres W E N S nx ny cij _ hi0 him hj0 hjm)
    (EqAt_trans (cornersZMZS_pres W E N S nx ny cij _ hi0 him hj0 hjm)
      (EqAt_trans (cornersMZM_pres W E N S nx ny cij _ hi0 him hj0 hjm)
        (EqAt_trans (cornersZM_pres W E N S nx ny cij _ hi0 him hj0 hjm)
          (cornersZSM_pres W E N S nx ny cij s hi0 him hj0 hjm))))

theorem BC_Flexure_interior {W E N S : BCLabel} {nx ny : ℕ}
    {cij s0 s' : CoeffArrays}
    (h : BC_Flexure W E N S nx ny cij s0 = Except.ok s') (i j : ℕ)
    (hi0 : i ≠ 0) (hi1 : i ≠ 1) (him1 : i ≠ ny - 1) (him2 : i ≠ ny - 2)
    (hj0 : j ≠ 0) (hj1 : j ≠ 1) (hjm1 : j ≠ nx - 1) (hjm2 : j ≠ nx - 2) :
    EqAt s' s0 i j := by
  unfold BC_Flexure at h
  cases hw : westBlock W E cij s0 with
  | error m => rw [hw] at h; exact Except.noConfusion h
  | ok s1 =>
    rw [hw] at h
    simp only [Bind.bind, Except.bind] at h
    cases he : eastBlock E W nx cij s1 with
    | error m => rw [he] at h; exact Except.noConfusion h
    | ok s2 =>
      rw [he] at h
      simp only [Except.bind] at h
      cases hn : northBlock N S cij s2 with
      | error m => rw [hn] at h; exact Except.noConfusion h
      | ok s3 =>
        rw [hn] at h
        simp only [Except.bind] at h
        cases hs : southBlock S N ny cij s3 with
        | error m => rw [hs] at h; exact Except.noConfusion h
        | ok s4 =>
          rw [hs] at h
          simp only [Except.bind] at h
          obtain rfl := Except.ok.inj h
          exact EqAt_trans (cornersBlock_pres W E N S nx ny cij s4 hi0 him1 hj0 hjm1)
            (EqAt_trans (southBlock_pres hs him1 him2)
              (EqAt_trans (northBlock_pres hn hi0 hi1)
                (EqAt_trans (eastBlock_pres he hjm1 hjm2)
                  (westBlock_pres hw hj0 hj1))))

/-!
## Claim theorems
-/

/-- Claim C1 (code bug witnessed): with spatially constant rigidity
(D = 1 everywhere), grid spacings dx = 1, dy = 2, the vWC1994 stencil
gives cj2i0 = D/dx^4 = 1, while the scalar-Te closed-form branch gives
cj2i0 = D/dy^4 = 1/16: the scalar branch assigns the dy^4 denominator
to the x-offset coefficients (and dx^4 to the y-offset ones), so the two
branches do not coincide cell by cell unless dx = dy. -/
theorem gflex_C1_constD_mismatch :
    (get_coeff_values_array "vWC1994" (fun _ _ => F 1) 2
        (elasprep_dx4 1) (elasprep_dy4 2) (elasprep_dx2dy2 1 2)
        (1/4) (49/5)).map (fun c => c.cj2i0 0 0) = Except.ok (F 1)
    ∧ (get_coeff_values_scalar 1 2 (elasprep_dx4 1) (elasprep_dy4 2)
        (elasprep_dx2dy2 1 2) (1/4) (49/5)).cj2i0 0 0 = F (1/16)
    ∧ F 1 ≠ F (1/16) := by
  refine ⟨?_, ?_, ?_⟩
  · simp only [get_coeff_values_array, if_pos rfl, Except.map]
    norm_num [F, FVal.add, FVal.sub, FVal.neg, FVal.mul, FVal.div,
      HDiv.hDiv, Div.div, HAdd.hAdd, Add.add, HSub.hSub, Sub.sub,
      HMul.hMul, Mul.mul, Neg.neg, OfNat.ofNat,
      elasprep_dx4, elasprep_dy4, elasprep_dx2dy2]
  · simp only [get_coeff_values_scalar]
    norm_num [F_def, fin_injEq, elasprep_dx4, elasprep_dy4,
      elasprep_dx2dy2]
  · simp only [ne_eq, F_def, fin_injEq]
    norm_num

/-- Claim C2 (counterexample): selecting plate-solution type
LinearTeVariationsOnly does not produce coefficient arrays -- the
builder exits before constructing any of the 13 arrays. -/
theorem gflex_C2_counterexample :
    (get_coeff_values_array "LinearTeVariationsOnly" (fun _ _ => F 1)
      1 1 1 1 (1/4) 1).toOption = none := by
  rfl

/-- Claim C2 (amended): selecting LinearTeVariationsOnly is recognized as
a valid label -- it is answered with its own dedicated fatal message, not
with the unrecognized-plate-solution-type error -- but the builder always
aborts with sys.exit before producing the 13 simplified arrays, so the
solve never proceeds. -/
theorem gflex_C2_amended (D : Arr) (drho dx4 dy4 dx2dy2 nu g : ℚ) :
    get_coeff_values_array "LinearTeVariationsOnly" D drho dx4 dy4 dx2dy2
        nu g
      = Except.error "CHECK LATER PARTS OF SOLUTION: NOT SURE IF THEY ARE RIGHT"
    ∧ ("CHECK LATER PARTS OF SOLUTION: NOT SURE IF THEY ARE RIGHT"
        ≠ "Not an acceptable plate solution type. Please choose from:\n"
          ++ "* vWC1994\n" ++ "* LinearTeVariationsOnly\n" ++ "* G2009\n"
          ++ "") := by
  exact ⟨rfl, by decide⟩

/-- Claim C3 (counterexample): an iterative solve whose Krylov collaborator
reports non-convergence (info flag 7, nonzero) still returns a plain
deflection value, with no failure surfaced to the caller. -/
theorem gflex_C3_counterexample :
    fd_solve "iterative" (1/1000)
      (fun (_ : Unit) (_ : ℕ → ℚ) (_ : ℚ) => (fun _ => (5 : ℚ), (7 : ℤ)))
      (fun _ _ => fun _ => 0) () 3 (fun _ _ => 1) 0 0 = -5
    ∧ (7 : ℤ) ≠ 0 := by
  exact ⟨rfl, by decide⟩

/-- Claim C3 (amended): fd_solve surfaces no solver failures: the result
depends only on the iterate vector returned by the iterative solver --
the convergence info flag is discarded -- and the direct path returns the
spsolve output unchanged (scipy spsolve does not raise on singular
systems), so degenerate results flow through silently. -/
theorem gflex_C3_amended {α : Type} (solver : String) (tol : ℚ)
    (lg1 lg2 : α → (ℕ → ℚ) → ℚ → ((ℕ → ℚ) × ℤ))
    (sp : α → (ℕ → ℚ) → (ℕ → ℚ)) (A : α) (nx : ℕ) (q0 : ℕ → ℕ → ℚ)
    (h : ∀ a b t, (lg1 a b t).1 = (lg2 a b t).1) :
    fd_solve solver tol lg1 sp A nx q0 = fd_solve solver tol lg2 sp A nx q0 := by
  funext i j
  simp only [fd_solve]
  split
  · rw [h]
  · rfl

/-- Witness for C3 (amended): two lgmres collaborators returning the same
iterate but different info flags (0 = converged versus 9) produce the
same deflection. -/
theorem gflex_C3_amended_witness :
    fd_solve "iterative" 1
      (fun (_ : Unit) (_ : ℕ → ℚ) (_ : ℚ) => (fun _ => (3 : ℚ), (0 : ℤ)))
      (fun _ _ => fun _ => 0) () 4 (fun _ _ => 2)
    = fd_solve "iterative" 1
      (fun (_ : Unit) (_ : ℕ → ℚ) (_ : ℚ) => (fun _ => (3 : ℚ), (9 : ℤ)))
      (fun _ _ => fun _ => 0) () 4 (fun _ _ => 2) :=
  gflex_C3_amended "iterative" 1 _ _ _ () 4 _ (fun _ _ _ => rfl)

/-- Claim C4 (counterexample): a probe lgmres collaborator that returns
the tolerance it was passed shows that an iterative solve configured
with iterative_ConvergenceTolerance = 42 still runs lgmres at the scipy
default tolerance 1e-5: the configured tolerance is not the stopping
tolerance and changing it does not change the stopping criterion. -/
theorem gflex_C4_counterexample :
    fd_solve "iterative" 42
      (fun (_ : Unit) (_ : ℕ → ℚ) (t : ℚ) => (fun _ => t, (0 : ℤ)))
      (fun _ _ => fun _ => 0) () 3 (fun _ _ => 1) 0 0 = -(1/100000)
    ∧ (1/100000 : ℚ) ≠ 42 := by
  exact ⟨rfl, by norm_num⟩

/-- Claim C4 (amended): whenever the solver mode is iterative, fd_solve
runs lgmres with the scipy library default tolerance (the tol argument
of the call is commented out in the source), independently of the
caller-configured iterative_ConvergenceTolerance, and returns the
negated reshaped iterate. -/
theorem gflex_C4_amended {α : Type} (solver : String) (tol : ℚ)
    (lg : α → (ℕ → ℚ) → ℚ → ((ℕ → ℚ) × ℤ))
    (sp : α → (ℕ → ℚ) → (ℕ → ℚ)) (A : α) (nx : ℕ) (q0 : ℕ → ℕ → ℚ)
    (h : solver = "iterative" ∨ solver = "Iterative") :
    fd_solve solver tol lg sp A nx q0
      = fun i j =>
          -((lg A (fun k => q0 (k / nx) (k % nx))
              scipy_lgmres_tol_default).1 (i * nx + j)) := by
  simp only [fd_solve, if_pos h]

/-- Witness for C4 (amended): the iterative branch at a concrete
configured tolerance of 42. -/
theorem gflex_C4_amended_witness :
    fd_solve "iterative" 42
      (fun (_ : Unit) (_ : ℕ → ℚ) (t : ℚ) => (fun _ => t, (0 : ℤ)))
      (fun _ _ => fun _ => 0) () 3 (fun _ _ => 1)
      = fun i j =>
          -(((fun (_ : Unit) (_ : ℕ → ℚ) (t : ℚ) => (fun _ => t, (0 : ℤ)))
              () (fun k => (fun _ _ => (1 : ℚ)) (k / 3) (k % 3))
              scipy_lgmres_tol_default).1 (i * 3 + j)) :=
  gflex_C4_amended "iterative" 42 _ _ () 3 _ (Or.inl rfl)

/-- Claim C5: for every solve in which no opposing edge pair is Periodic,
the assembled sparse operator (the no-periodic branch of build_diags,
applied to any finite pre-boundary-condition coefficient bundle q after
BC_Flexure) (a) has nonzero entries only on the 13 diagonals
-2nx, -nx-1, -nx, -nx+1, -2, -1, 0, 1, 2, nx-1, nx, nx+1, 2nx;
(b) places the coefficient array of each neighbour offset (dx, dy) on
linear diagonal offset dy*nx+dx, entry (r, r + dy*nx + dx) holding the
post-boundary-condition array value of the source cell whenever the
neighbour is in range; and (c) every row of a cell at least two cells
from every edge carries exactly the unmodified 13-point stencil
coefficients q of that cell. -/
theorem gflex_C5_operator (nx ny : ℕ) (h5x : 5 ≤ nx) (h5y : 5 ≤ ny)
    (W E N S : BCLabel)
    (hWE : ¬(W = BCLabel.Periodic ∧ E = BCLabel.Periodic))
    (hNS : ¬(N = BCLabel.Periodic ∧ S = BCLabel.Periodic))
    (q : CoeffQ) (s' : CoeffArrays)
    (hok : BC_Flexure W E N S nx ny (CoeffQ.toF q) (CoeffQ.toF q)
      = Except.ok s') :
      (∀ r c : ℕ, r < nx * ny → c < nx * ny →
          ((c : ℤ) - (r : ℤ)) ∉ fd_offsets nx →
          matEntry nx ny s' r c = FVal.fin 0)
      ∧ (∀ i j : ℕ, 2 ≤ i → i < ny → j < nx →
          matEntry nx ny s' (i * nx + j) ((i - 2) * nx + j)
            = zi (CoeffArrays.cj0i_2 s' i j))
      ∧ (∀ i j : ℕ, 1 ≤ i → i < ny → 1 ≤ j → j < nx →
          matEntry nx ny s' (i * nx + j) ((i - 1) * nx + (j - 1))
            = zi (CoeffArrays.cj_1i_1 s' i j))
      ∧ (∀ i j : ℕ, 1 ≤ i → i < ny → j < nx →
          matEntry nx ny s' (i * nx + j) ((i - 1) * nx + j)
            = zi (CoeffArrays.cj0i_1 s' i j))
      ∧ (∀ i j : ℕ, 1 ≤ i → i < ny → j + 1 < nx →
          matEntry nx ny s' (i * nx + j) ((i - 1) * nx + (j + 1))
            = zi (CoeffArrays.cj1i_1 s' i j))
      ∧ (∀ i j : ℕ, i < ny → 2 ≤ j → j < nx →
          matEntry nx ny s' (i * nx + j) (i * nx + (j - 2))
            = zi (CoeffArrays.cj_2i0 s' i j))
      ∧ (∀ i j : ℕ, i < ny → 1 ≤ j → j < nx →
          matEntry nx ny s' (i * nx + j) (i * nx + (j - 1))
            = zi (CoeffArrays.cj_1i0 s' i j))
      ∧ (∀ i j : ℕ, i < ny → j < nx →
          matEntry nx ny s' (i * nx + j) (i * nx + j)
            = zi (CoeffArrays.cj0i0 s' i j))
      ∧ (∀ i j : ℕ, i < ny → j + 1 < nx →
          matEntry nx ny s' (i * nx + j) (i * nx + (j + 1))
            = zi (CoeffArrays.cj1i0 s' i j))
      ∧ (∀ i j : ℕ, i < ny → j + 2 < nx →
          matEntry nx ny s' (i * nx + j) (i * nx + (j + 2))
            = zi (CoeffArrays.cj2i0 s' i j))
      ∧ (∀ i j : ℕ, i + 1 < ny → 1 ≤ j → j < nx →
          matEntry nx ny s' (i * nx + j) ((i + 1) * nx + (j - 1))
            = zi (CoeffArrays.cj_1i1 s' i j))
      ∧ (∀ i j : ℕ, i + 1 < ny → j < nx →
          matEntry nx ny s' (i * nx + j) ((i + 1) * nx + j)
            = zi (CoeffArrays.cj0i1 s' i j))
      ∧ (∀ i j : ℕ, i + 1 < ny → j + 1 < nx →
          matEntry nx ny s' (i * nx + j) ((i + 1) * nx + (j + 1))
            = zi (CoeffArrays.cj1i1 s' i j))
      ∧ (∀ i j : ℕ, i + 2 < ny → j < nx →
          matEntry nx ny s' (i * nx + j) ((i + 2) * nx + j)
            = zi (CoeffArrays.cj0i2 s' i j))
      ∧ (∀ i j : ℕ, 2 ≤ i → i + 3 ≤ ny → 2 ≤ j → j + 3 ≤ nx →
          matEntry nx ny s' (i * nx + j) ((i - 2) * nx + j)
              = FVal.fin (CoeffQ.cj0i_2 q i j)
          ∧ matEntry nx ny s' (i * nx + j) ((i - 1) * nx + (j - 1))
              = FVal.fin (CoeffQ.cj_1i_1 q i j)
          ∧ matEntry nx ny s' (i * nx + j) ((i - 1) * nx + j)
              = FVal.fin (CoeffQ.cj0i_1 q i j)
          ∧ matEntry nx ny s' (i * nx + j) ((i - 1) * nx + (j + 1))
              = FVal.fin (CoeffQ.cj1i_1 q i j)
          ∧ matEntry nx ny s' (i * nx + j) (i * nx + (j - 2))
              = FVal.fin (CoeffQ.cj_2i0 q i j)
          ∧ matEntry nx ny s' (i * nx + j) (i * nx + (j - 1))
              = FVal.fin (CoeffQ.cj_1i0 q i j)
          ∧ matEntry nx ny s' (i * nx + j) (i * nx + j)
              = FVal.fin (CoeffQ.cj0i0 q i j)
          ∧ matEntry nx ny s' (i * nx + j) (i * nx + (j + 1))
              = FVal.fin (CoeffQ.cj1i0 q i j)
          ∧ matEntry nx ny s' (i * nx + j) (i * nx + (j + 2))
              = FVal.fin (CoeffQ.cj2i0 q i j)
          ∧ matEntry nx ny s' (i * nx + j) ((i + 1) * nx + (j - 1))
              = FVal.fin (CoeffQ.cj_1i1 q i j)
          ∧ matEntry nx ny s' (i * nx + j) ((i + 1) * nx + j)
              = FVal.fin (CoeffQ.cj0i1 q i j)
          ∧ matEntry nx ny s' (i * nx + j) ((i + 1) * nx + (j + 1))
              = FVal.fin (CoeffQ.cj1i1 q i j)
          ∧ matEntry nx ny s' (i * nx + j) ((i + 2) * nx + j)
              = FVal.fin (CoeffQ.cj0i2 q i j)) := by
  refine ⟨?_, place_cj0i_2 nx ny h5x s', place_cj_1i_1 nx ny h5x s',
    place_cj0i_1 nx ny h5x s', place_cj1i_1 nx ny h5x s',
    place_cj_2i0 nx ny h5x s', place_cj_1i0 nx ny h5x s',
    place_cj0i0 nx ny h5x s', place_cj1i0 nx ny h5x s',
    place_cj2i0 nx ny h5x s', place_cj_1i1 nx ny h5x s',
    place_cj0i1 nx ny h5x s', place_cj1i1 nx ny h5x s',
    place_cj0i2 nx ny h5x s', ?_⟩
  · intro r c hr hc hnot
    unfold matEntry
    rw [if_pos ⟨hr, hc⟩]
    refine diagLookup_zero _ _ _ ?_
    intro p hp heq
    have hmem : p.1 ∈ fd_offsets nx := by
      rw [← diagPairs_map_fst nx ny s']
      exact List.mem_map_of_mem Prod.fst hp
    exact hnot (heq ▸ hmem)
  · intro i j hi2 hi3 hj2 hj3
    obtain ⟨e1, e2, e3, e4, e5, e6, e7, e8, e9, e10, e11, e12, e13⟩ :=
      BC_Flexure_interior hok i j (by omega) (by omega)
        (by omega) (by omega) (by omega) (by omega) (by omega) (by omega)
    refine ⟨?_, ?_, ?_, ?_, ?_, ?_, ?_, ?_, ?_, ?_, ?_, ?_, ?_⟩
    · rw [place_cj0i_2 nx ny h5x s' i j (by omega) (by omega) (by omega), e5]; rfl
    · rw [place_cj_1i_1 nx ny h5x s' i j (by omega) (by omega) (by omega) (by omega), e2]; rfl
    · rw [place_cj0i_1 nx ny h5x s' i j (by omega) (by omega) (by omega), e6]; rfl
    · rw [place_cj1i_1 nx ny h5x s' i j (by omega) (by omega) (by omega), e10]; rfl
    · rw [place_cj_2i0 nx ny h5x s' i j (by omega) (by omega) (by omega), e1]; rfl
    · rw [place_cj_1i0 nx ny h5x s' i j (by omega) (by omega) (by omega), e3]; rfl
    · rw [place_cj0i0 nx ny h5x s' i j (by omega) (by omega), e7]; rfl
    · rw [place_cj1i0 nx ny h5x s' i j (by omega) (by omega), e11]; rfl
    · rw [place_cj2i0 nx ny h5x s' i j (by omega) (by omega), e13]; rfl
    · rw [place_cj_1i1 nx ny h5x s' i j (by omega) (by omega) (by omega), e4]; rfl
    · rw [place_cj0i1 nx ny h5x s' i j (by omega) (by omega), e8]; rfl
    · rw [place_cj1i1 nx ny h5x s' i j (by omega) (by omega), e12]; rfl
    · rw [place_cj0i2 nx ny h5x s' i j (by omega) (by omega), e9]; rfl

/-- Witness for C5: the concrete 5 x 5 all-Dirichlet0 assembly with the
zero coefficient bundle. -/
theorem gflex_C5_operator_witness :
      (∀ r c : ℕ, r < 5 * 5 → c < 5 * 5 →
          ((c : ℤ) - (r : ℤ)) ∉ fd_offsets 5 →
          matEntry 5 5 C5s r c = FVal.fin 0)
      ∧ (∀ i j : ℕ, 2 ≤ i → i < 5 → j < 5 →
          matEntry 5 5 C5s (i * 5 + j) ((i - 2) * 5 + j)
            = zi (CoeffArrays.cj0i_2 C5s i j))
      ∧ (∀ i j : ℕ, 1 ≤ i → i < 5 → 1 ≤ j → j < 5 →
          matEntry 5 5 C5s (i * 5 + j) ((i - 1) * 5 + (j - 1))
            = zi (CoeffArrays.cj_1i_1 C5s i j))
      ∧ (∀ i j : ℕ, 1 ≤ i → i < 5 → j < 5 →
          matEntry 5 5 C5s (i * 5 + j) ((i - 1) * 5 + j)
            = zi (CoeffArrays.cj0i_1 C5s i j))
      ∧ (∀ i j : ℕ, 1 ≤ i → i < 5 → j + 1 < 5 →
          matEntry 5 5 C5s (i * 5 + j) ((i - 1) * 5 + (j + 1))
            = zi (CoeffArrays.cj1i_1 C5s i j))
      ∧ (∀ i j : ℕ, i < 5 → 2 ≤ j → j < 5 →
          matEntry 5 5 C5s (i * 5 + j) (i * 5 + (j - 2))
            = zi (CoeffArrays.cj_2i0 C5s i j))
      ∧ (∀ i j : ℕ, i < 5 → 1 ≤ j → j < 5 →
          matEntry 5 5 C5s (i * 5 + j) (i * 5 + (j - 1))
            = zi (CoeffArrays.cj_1i0 C5s i j))
      ∧ (∀ i j : ℕ, i < 5 → j < 5 →
          matEntry 5 5 C5s (i * 5 + j) (i * 5 + j)
            = zi (CoeffArrays.cj0i0 C5s i j))
      ∧ (∀ i j : ℕ, i < 5 → j + 1 < 5 →
          matEntry 5 5 C5s (i * 5 + j) (i * 5 + (j + 1))
            = zi (CoeffArrays.cj1i0 C5s i j))
      ∧ (∀ i j : ℕ, i < 5 → j + 2 < 5 →
          matEntry 5 5 C5s (i * 5 + j) (i * 5 + (j + 2))
            = zi (CoeffArrays.cj2i0 C5s i j))
      ∧ (∀ i j : ℕ, i + 1 < 5 → 1 ≤ j → j < 5 →
          matEntry 5 5 C5s (i * 5 + j) ((i + 1) * 5 + (j - 1))
            = zi (CoeffArrays.cj_1i1 C5s i j))
      ∧ (∀ i j : ℕ, i + 1 < 5 → j < 5 →
          matEntry 5 5 C5s (i * 5 + j) ((i + 1) * 5 + j)
            = zi (CoeffArrays.cj0i1 C5s i j))
      ∧ (∀ i j : ℕ, i + 1 < 5 → j + 1 < 5 →
          matEntry 5 5 C5s (i * 5 + j) ((i + 1) * 5 + (j + 1))
            = zi (CoeffArrays.cj1i1 C5s i j))
      ∧ (∀ i j : ℕ, i + 2 < 5 → j < 5 →
          matEntry 5 5 C5s (i * 5 + j) ((i + 2) * 5 + j)
            = zi (CoeffArrays.cj0i2 C5s i j))
      ∧ (∀ i j : ℕ, 2 ≤ i → i + 3 ≤ 5 → 2 ≤ j → j + 3 ≤ 5 →
          matEntry 5 5 C5s (i * 5 + j) ((i - 2) * 5 + j)
              = FVal.fin (CoeffQ.cj0i_2 qzero i j)
          ∧ matEntry 5 5 C5s (i * 5 + j) ((i - 1) * 5 + (j - 1))
              = FVal.fin (CoeffQ.cj_1i_1 qzero i j)
          ∧ matEntry 5 5 C5s (i * 5 + j) ((i - 1) * 5 + j)
              = FVal.fin (CoeffQ.cj0i_1 qzero i j)
          ∧ matEntry 5 5 C5s (i * 5 + j) ((i - 1) * 5 + (j + 1))
              = FVal.fin (CoeffQ.cj1i_1 qzero i j)
          ∧ matEntry 5 5 C5s (i * 5 + j) (i * 5 + (j - 2))
              = FVal.fin (CoeffQ.cj_2i0 qzero i j)
          ∧ matEntry 5 5 C5s (i * 5 + j) (i * 5 + (j - 1))
              = FVal.fin (CoeffQ.cj_1i0 qzero i j)
          ∧ matEntry 5 5 C5s (i * 5 + j) (i * 5 + j)
              = FVal.fin (CoeffQ.cj0i0 qzero i j)
          ∧ matEntry 5 5 C5s (i * 5 + j) (i * 5 + (j + 1))
              = FVal.fin (CoeffQ.cj1i0 qzero i j)
          ∧ matEntry 5 5 C5s (i * 5 + j) (i * 5 + (j + 2))
              = FVal.fin (CoeffQ.cj2i0 qzero i j)
          ∧ matEntry 5 5 C5s (i * 5 + j) ((i + 1) * 5 + (j - 1))
              = FVal.fin (CoeffQ.cj_1i1 qzero i j)
          ∧ matEntry 5 5 C5s (i * 5 + j) ((i + 1) * 5 + j)
              = FVal.fin (CoeffQ.cj0i1 qzero i j)
          ∧ matEntry 5 5 C5s (i * 5 + j) ((i + 1) * 5 + (j + 1))
              = FVal.fin (CoeffQ.cj1i1 qzero i j)
          ∧ matEntry 5 5 C5s (i * 5 + j) ((i + 2) * 5 + j)
              = FVal.fin (CoeffQ.cj0i2 qzero i j)) :=
  gflex_C5_operator 5 5 (by omega) (by omega) .Dirichlet0 .Dirichlet0
    .Dirichlet0 .Dirichlet0 (by decide) (by decide) qzero C5s rfl

/-- Claim C8 (counterexample): a single point (n = 1) with unit load,
parameters making D = 1, alpha = 1, coeff = 1/(2 pi), and the Kelvin
collaborator taking the true value kei(0) = -pi/4 at the only evaluated
argument, receives deflection -1/8 from its own load, whereas the claim
(contribution of a point to itself excluded) predicts the empty sum 0. -/
theorem gflex_C8_counterexample :
    spatialDomainNoGrid 1 (fun _ => 0) (fun _ => 0) (fun _ => 1)
        (fun _ => -(Real.pi / 4)) 12 1 0 1 1 0 = -(1/8)
    ∧ (∑ i ∈ Finset.univ.erase (0 : Fin 1),
        (fun _ => (1 : ℝ)) i * SAS_coeff 12 1 0 1 1
          * (fun _ => -(Real.pi / 4))
              (SAS_dist (fun _ => (0 : ℝ)) (fun _ => (0 : ℝ)) 0 i
                / SAS_alpha 12 1 0 1 1)) = 0
    ∧ (-(1/8) : ℝ) ≠ 0 := by
  refine ⟨?_, ?_, by norm_num⟩
  · unfold spatialDomainNoGrid
    rw [foldl_accum_eq_sum]
    simp only [List.finRange_succ, List.finRange_zero, List.map_nil,
      List.map_cons, List.sum_cons, List.sum_nil]
    rw [show SAS_coeff 12 1 0 1 1 = 1 / (2 * Real.pi) by
      norm_num [SAS_coeff, SAS_alpha, SAS_D, Real.one_rpow]]
    have hpi := Real.pi_ne_zero
    field_simp
    ring
  · have h : (Finset.univ.erase (0 : Fin 1)) = ∅ := rfl
    rw [h, Finset.sum_empty]

/-- Claim C8 (amended): in the scattered-point SAS_NG solve the deflection
at each point equals the sum of Kelvin-weighted contributions
q0 i * coeff * kei(r/alpha) over every point including the point itself
(whose own-load term enters with r = 0, kei(0) = -pi/4), with
coeff = alpha^2/(2 pi D) and alpha = (D/(drho g))^0.25. -/
theorem gflex_C8_amended (n : ℕ) (x y q0 : Fin n → ℝ) (kei : ℝ → ℝ)
    (E Te nu drho g : ℝ) (k : Fin n) :
    spatialDomainNoGrid n x y q0 kei E Te nu drho g k
      = ∑ i : Fin n,
          q0 i * SAS_coeff E Te nu drho g
            * kei (SAS_dist x y k i / SAS_alpha E Te nu drho g) := by
  unfold spatialDomainNoGrid
  rw [foldl_accum_eq_sum, Fin.sum_univ_def]
  simp

/-- Claim C9 (counterexample): the concrete solve C9run (west = Periodic,
east = Dirichlet0) does abort with the unpaired-wraparound fatal error,
but not with a clean state: at the sys.exit the model already carries the
coefficient arrays built by get_coeff_values and the nan-padded rigidity
grids from BC_Rigidity (only the sparse matrix is absent), contradicting
"no coefficient arrays, rigidity padding, or sparse matrix survive". -/
theorem gflex_C9_counterexample :
    exMsg C9run
      = some "Not physical to have one wrap-around boundary but not its pair."
    ∧ (exTrace C9run).map
        (fun t => (t.cij.isSome, t.coeffs.isSome, t.coeff_matrix.isSome))
      = some (true, true, false)
    ∧ (exTrace C9run).map (fun t => t.Te 0 0) = some FVal.nan :=
  ⟨rfl, rfl, rfl⟩

/-- Claim C9 (amended): every coefficient-matrix construction in which one
edge of an opposing pair is Periodic and the other is not aborts with the
fatal error "Not physical to have one wrap-around boundary but not its
pair." and never builds a sparse matrix -- but the abort is not immediate
and leaves partial state: the rigidity padding (BC_Rigidity) and the 13
coefficient arrays (get_coeff_values) have already been created and
survive on the model at the moment of the sys.exit. -/
theorem gflex_C9_amended (W E N S : BCLabel) (pst : String) (nx ny : ℕ)
    (Te D : Arr) (drho dx4 dy4 dx2dy2 nu g : ℚ)
    (bp : CoeffArrays → ℕ → ℕ → FVal)
    (hunpaired :
      (W = .Periodic ∧ E ≠ .Periodic) ∨ (E = .Periodic ∧ W ≠ .Periodic)
      ∨ (N = .Periodic ∧ S ≠ .Periodic) ∨ (S = .Periodic ∧ N ≠ .Periodic))
    (hpst : pst = "vWC1994" ∨ pst = "G2009") :
    ∃ tr : SolveTrace,
      BC_selector_and_coeff_matrix_creator W E N S pst nx ny Te D
          drho dx4 dy4 dx2dy2 nu g bp
        = Except.error
            ("Not physical to have one wrap-around boundary but not its pair.",
             tr)
      ∧ tr.cij.isSome = true ∧ tr.coeffs.isSome = true
      ∧ tr.coeff_matrix = none := by
  rcases hpst with rfl | rfl <;>
  rcases hunpaired with ⟨rfl, hB⟩ | ⟨rfl, hB⟩ | ⟨rfl, hB⟩ | ⟨rfl, hB⟩
  · cases E <;> first
      | exact absurd rfl hB
      | exact ⟨_, rfl, rfl, rfl, rfl⟩
  · cases W <;> first
      | exact absurd rfl hB
      | exact ⟨_, rfl, rfl, rfl, rfl⟩
  · cases W <;> cases E <;> cases S <;> first
      | exact absurd rfl hB
      | exact ⟨_, rfl, rfl, rfl, rfl⟩
  · cases W <;> cases E <;> cases N <;> first
      | exact absurd rfl hB
      | exact ⟨_, rfl, rfl, rfl, rfl⟩
  · cases E <;> first
      | exact absurd rfl hB
      | exact ⟨_, rfl, rfl, rfl, rfl⟩
  · cases W <;> first
      | exact absurd rfl hB
      | exact ⟨_, rfl, rfl, rfl, rfl⟩
  · cases W <;> cases E <;> cases S <;> first
      | exact absurd rfl hB
      | exact ⟨_, rfl, rfl, rfl, rfl⟩
  · cases W <;> cases E <;> cases N <;> first
      | exact absurd rfl hB
      | exact ⟨_, rfl, rfl, rfl, rfl⟩

/-- Witness for C9 (amended): the concrete unpaired configuration
west = Periodic, east = Dirichlet0 on a 5 x 5 grid with vWC1994. -/
theorem gflex_C9_amended_witness :
    ∃ tr : SolveTrace,
      BC_selector_and_coeff_matrix_creator .Periodic .Dirichlet0 .Dirichlet0
          .Dirichlet0 "vWC1994" 5 5 (fun _ _ => F 1) (fun _ _ => F 1)
          1 1 1 1 (1/4) 1 (fun _ _ _ => FVal.fin 0)
        = Except.error
            ("Not physical to have one wrap-around boundary but not its pair.",
             tr)
      ∧ tr.cij.isSome = true ∧ tr.coeffs.isSome = true
      ∧ tr.coeff_matrix = none :=
  gflex_C9_amended .Periodic .Dirichlet0 .Dirichlet0 .Dirichlet0 "vWC1994"
    5 5 (fun _ _ => F 1) (fun _ _ => F 1) 1 1 1 1 (1/4) 1
    (fun _ _ _ => FVal.fin 0) (Or.inl ⟨rfl, by decide⟩) (Or.inl rfl)

/-- Claim C10: any solver label other than "iterative" or "Iterative" --
including misspellings and arbitrary strings -- makes fd_solve perform
the direct sparse solve (spsolve) and return its negated reshaped
result; no configuration error is raised, the fallback is silent. -/
theorem gflex_C10_direct_fallback {α : Type} (solver : String) (tol : ℚ)
    (lg : α → (ℕ → ℚ) → ℚ → ((ℕ → ℚ) × ℤ))
    (sp : α → (ℕ → ℚ) → (ℕ → ℚ)) (A : α) (nx : ℕ) (q0 : ℕ → ℕ → ℚ)
    (h1 : solver ≠ "iterative") (h2 : solver ≠ "Iterative") :
    fd_solve solver tol lg sp A nx q0
      = fun i j =>
          -((sp A (fun k => q0 (k / nx) (k % nx))) (i * nx + j)) := by
  funext i j
  simp only [fd_solve]
  rw [if_neg (fun hc => hc.elim h1 h2)]

/-- Witness for C10: a misspelled solver label "dierct" falls back to the
direct spsolve path. -/
theorem gflex_C10_direct_fallback_witness :
    fd_solve "dierct" 1
      (fun (_ : Unit) (_ : ℕ → ℚ) (t : ℚ) => (fun _ => t, (0 : ℤ)))
      (fun _ _ => fun _ => 6) () 3 (fun _ _ => 1)
      = fun i j =>
          -(((fun (_ : Unit) (_ : ℕ → ℚ) => fun _ => (6 : ℚ))
              () (fun k => (fun _ _ => (1 : ℚ)) (k / 3) (k % 3))) (i * 3 + j)) :=
  gflex_C10_direct_fallback "dierct" 1 _ _ () 3 _ (by decide) (by decide)

/-- Claim C6 (code bug witnessed): with all four edges Periodic on a 3x3
interior rigidity grid testD3 (interior value at (i,j) is 3i+j), the East
ghost column of the padded array receives the second-from-east interior
column (the mirror formula D[:,-1] = D[:,-3]) and the South ghost row the
second-from-south interior row, rather than the periodic wrap values
(westmost interior column, northmost interior row): ghost (1,4) = 1
though the westmost interior value of that row is 0, and ghost (4,1) = 3
though the northmost interior value of that column is 0.  The West ghost
(1,0) = 2 does wrap correctly to the eastmost interior value. -/
theorem gflex_C6_periodic_ghost_bug :
    ((BC_Rigidity_array .Periodic .Periodic .Periodic .Periodic 3 3
        (fun _ _ => F 1) testD3).2 1 4 = F 1)
    ∧ ((BC_Rigidity_array .Periodic .Periodic .Periodic .Periodic 3 3
        (fun _ _ => F 1) testD3).2 1 1 = F 0)
    ∧ ((BC_Rigidity_array .Periodic .Periodic .Periodic .Periodic 3 3
        (fun _ _ => F 1) testD3).2 4 1 = F 3)
    ∧ ((BC_Rigidity_array .Periodic .Periodic .Periodic .Periodic 3 3
        (fun _ _ => F 1) testD3).2 1 0 = F 2)
    ∧ F 1 ≠ F 0 ∧ F 3 ≠ F 0 := by
  refine ⟨rfl, rfl, rfl, rfl, ?_, ?_⟩ <;>
    · simp only [ne_eq, F_def, fin_injEq]
      norm_num

/-- Claim C7 (counterexample): invoking run with method "FFT" does fail
with the unsupported-method error, but the model state at the failure is
not the pre-call state: solver_start_time and method_func have been
mutated before the fatal exit. -/
theorem gflex_C7_counterexample :
    (F2D_run 10 20 id id id id Except.ok Except.ok Except.ok
        { method := "FFT" }
      = Except.error
          ("The fast Fourier transform solution method is not yet implemented.",
           { method := "FFT", solver_start_time := some 10,
             method_func := some "FFT" }))
    ∧ ({ method := "FFT", solver_start_time := some 10,
         method_func := some "FFT" } : F2DRunState)
        ≠ { method := "FFT" } := by
  exact ⟨rfl, by decide⟩

/-- Claim C7 (amended): a solve with method "FFT" always dies with the
unsupported-method fatal error before any deflection is computed, but
run() mutates bookkeeping state first: at the failure the model carries
solver_start_time = the entry clock reading and method_func = "FFT"
(applied on top of whatever the base-class FFT template hook did). -/
theorem gflex_C7_amended (t1 t2 : ℚ)
    (bFD bFFT bSAS bSNG : F2DRunState → F2DRunState)
    (iFD iSAS iSNG : F2DRunState → Except (String × F2DRunState) F2DRunState)
    (s0 : F2DRunState) (h : s0.method = "FFT") :
    F2D_run t1 t2 bFD bFFT bSAS bSNG iFD iSAS iSNG s0
      = Except.error
          ("The fast Fourier transform solution method is not yet implemented.",
           { bFFT { s0 with solver_start_time := some t1 } with
               method_func := some "FFT" }) := by
  simp [F2D_run, F2D_FFT, h, Except.map]

/-- Witness for C7 (amended): concrete run at method "FFT". -/
theorem gflex_C7_amended_witness :
    F2D_run 10 20 id id id id Except.ok Except.ok Except.ok
        { method := "FFT" }
      = Except.error
          ("The fast Fourier transform solution method is not yet implemented.",
           { method := "FFT", solver_start_time := some 10,
             method_func := some "FFT" }) :=
  gflex_C7_amended 10 20 id id id id Except.ok Except.ok Except.ok
    { method := "FFT" } rfl

end GFlex
